import Mathlib

/-!
Frame archive (src/src/archive.h): reference-counted frames, handles and pools.

A shallow embedding of `rsimpl::frame_archive` and of its nested classes `frame`,
`frame_ref` and `frameset`.

* A `frame*` is `Option Nat`: `none` is `nullptr`, `some p` the address of a frame.
* `Mem` is the frame memory: the frame stored at every address, the sequence of
  `acquire` / `release` calls made so far, and the release actions that ran.
* Constructors, assignment operators and destructors are functions that thread `Mem`
  and return the objects they write to.
* `ref_count` is a `std::atomic<int>`: a 32-bit two's complement integer, kept as an `Int`.
  `fetch_add(1)` wraps around from `INT_MAX` to `INT_MIN` (`int_wrap`).
-/

namespace rsimpl

/-- Largest value of a C++ `int` (32 bits). -/
def INT_MAX : Int := 2147483647

/-- Smallest value of a C++ `int` (32 bits). -/
def INT_MIN : Int := -2147483648

/-- Two's complement wrap-around of a mathematical integer into the range of `int`, as the
arithmetic of `std::atomic<int>` does it. -/
def int_wrap (x : Int) : Int :=
  (x + 2147483648) % 4294967296 - 2147483648

/-- Type `byte` of types.h: an 8-bit value. -/
abbrev byte := Fin 256

/-- Modelled from the spec: `frame_continuation` is declared in types.h, which is not among
the sources. The spec describes it as an optional deferred action attached to a frame and run
when the observer count returns to zero. `action = none` is the empty continuation, `some k`
stands for the deferred action number `k`. -/
structure frame_continuation where
  action : Option Nat
  deriving DecidableEq, Repr

namespace frame_continuation

/-- Default construction `frame_continuation()`: no deferred action. -/
def empty : frame_continuation := ⟨none⟩

/-- Modelled from the spec: `dst = std::move(src)` on continuations. The destination takes the
action of the source and the source is left empty. Returns `(dst, src)` after the move. -/
def move_assign (_dst src : frame_continuation) : frame_continuation × frame_continuation :=
  (src, empty)

end frame_continuation

/-- Struct `frame_archive::frame` (archive.h, lines 19-62). `owner` is the `frame_archive *`
back pointer (`none` is `nullptr`). -/
structure frame where
  ref_count : Int
  owner : Option Nat
  on_release : frame_continuation
  data : List byte
  timestamp : Int
  frame_number : Int
  system_time : Int
  deriving DecidableEq, Repr

namespace frame

/-- Constructor `explicit frame()`: count 0, no owner, empty continuation, empty buffer and
zero metadata. -/
def default_ctor : frame :=
  { ref_count := 0, owner := none, on_release := frame_continuation.empty,
    data := [], timestamp := 0, frame_number := 0, system_time := 0 }

/-- Move assignment `frame& operator=(frame&& r)` (lines 43-53), statement by statement.
Returns `(this, r)` after the assignment; `this` and `r` are distinct objects. -/
def move_assign (self r : frame) : frame × frame :=
  -- data = move(r.data);
  let self := { self with data := r.data }
  let r := { r with data := [] }
  -- timestamp = r.timestamp;
  let self := { self with timestamp := r.timestamp }
  -- owner = r.owner;
  let self := { self with owner := r.owner }
  -- ref_count = r.ref_count.exchange(0);
  let self := { self with ref_count := r.ref_count }
  let r := { r with ref_count := 0 }
  -- on_release = std::move(r.on_release);
  let k := frame_continuation.move_assign self.on_release r.on_release
  let self := { self with on_release := k.1 }
  let r := { r with on_release := k.2 }
  -- frame_number = r.frame_number;
  let self := { self with frame_number := r.frame_number }
  -- system_time = r.system_time;
  let self := { self with system_time := r.system_time }
  (self, r)

/-- Move constructor `frame(frame && r)` (lines 35-40): the member initialisers run first
(`ref_count(r.ref_count.exchange(0))`, `owner(r.owner)`, `on_release()`, the other members
take their default values), then the body `*this = std::move(r)`.
Returns `(this, r)` after the construction. -/
def move_ctor (r : frame) : frame × frame :=
  -- ref_count(r.ref_count.exchange(0)), owner(r.owner), on_release()
  let self : frame :=
    { ref_count := r.ref_count, owner := r.owner, on_release := frame_continuation.empty,
      data := [], timestamp := 0, frame_number := 0, system_time := 0 }
  let r := { r with ref_count := 0 }
  -- *this = std::move(r);
  move_assign self r

/-- Member `void acquire() { ref_count.fetch_add(1); }` (line 57): the atomic addition wraps
around in two's complement. -/
def acquire (f : frame) : frame :=
  { f with ref_count := int_wrap (f.ref_count + 1) }

/-- Modelled from the spec: `frame::release()` is only declared in archive.h (line 58), its body
is not among the sources. The spec: it decrements the count; if the count reaches zero it runs
the continuation once and returns the buffer to its owner. The decrement is by one, as a
mathematical integer. The function returns the frame after the call and, when the count
reached zero, the continuation that ran. -/
def release (f : frame) : frame × Option frame_continuation :=
  let c := f.ref_count - 1
  if c = 0 then
    ({ f with ref_count := c, on_release := frame_continuation.empty }, some f.on_release)
  else
    ({ f with ref_count := c }, none)

/-- Member `update_owner` (line 60). -/
def update_owner (f : frame) (new_owner : Option Nat) : frame :=
  { f with owner := new_owner }

/-- Member `attach_continuation` (line 61): `on_release = std::move(continuation)`. -/
def attach_continuation (f : frame) (continuation : frame_continuation) : frame :=
  { f with on_release := (frame_continuation.move_assign f.on_release continuation).1 }

end frame

/-- A frame with observer count `c`, a three-byte buffer, timestamp 100, frame number 1 and
system time 1000, as the capture thread fills it. -/
def frame.sample (c : Int) : frame :=
  { ref_count := c, owner := some 7, on_release := ⟨some 4⟩,
    data := [1, 2, 3], timestamp := 100, frame_number := 1, system_time := 1000 }

/-- A call of `frame::acquire` or `frame::release` on the frame at an address. -/
inductive Call where
  | acquire (p : Nat)
  | release (p : Nat)
  deriving DecidableEq, Repr

/-- A release action: the count of the frame at `addr` reached zero, `ran` is the continuation
that was executed and `owner` the archive the buffer went back to. -/
structure ReleaseAction where
  addr : Nat
  ran : frame_continuation
  owner : Option Nat
  deriving DecidableEq, Repr

/-- Frame memory: the frame at every address, the calls of `acquire` / `release` made so far
(oldest first) and the release actions that ran (oldest first). -/
structure Mem where
  frames : Nat → frame
  calls : List Call
  released : List ReleaseAction

namespace Mem

/-- Observer count of the frame at address `p`. -/
def count (m : Mem) (p : Nat) : Int := (m.frames p).ref_count

/-- Call `p->acquire()`. -/
def acquire (m : Mem) (p : Nat) : Mem :=
  { m with
    frames := Function.update m.frames p (m.frames p).acquire
    calls := m.calls ++ [Call.acquire p] }

/-- Call `p->release()`. -/
def release (m : Mem) (p : Nat) : Mem :=
  let r := (m.frames p).release
  { frames := Function.update m.frames p r.1
    calls := m.calls ++ [Call.release p]
    released :=
      match r.2 with
      | some k => m.released ++ [{ addr := p, ran := k, owner := (m.frames p).owner }]
      | none => m.released }

end Mem

/-- Class `frame_archive::frame_ref` (lines 64-105): its only member is `frame * frame_ptr`. -/
structure frame_ref where
  frame_ptr : Option Nat
  deriving DecidableEq, Repr

namespace frame_ref

/-- Constructor `frame_ref() : frame_ptr(nullptr) {}` (line 68). -/
def default_ctor : frame_ref := ⟨none⟩

/-- Constructor `explicit frame_ref(frame* frame)` (lines 70-73): `if (frame) frame->acquire();`. -/
def from_frame (m : Mem) (frame : Option Nat) : Mem × frame_ref :=
  match frame with
  | some p => (m.acquire p, ⟨frame⟩)
  | none => (m, ⟨frame⟩)

/-- Copy constructor `frame_ref(const frame_ref& other)` (lines 75-78):
`if (frame_ptr) frame_ptr->acquire();`. -/
def copy_ctor (m : Mem) (other : frame_ref) : Mem × frame_ref :=
  match other.frame_ptr with
  | some p => (m.acquire p, ⟨other.frame_ptr⟩)
  | none => (m, ⟨other.frame_ptr⟩)

/-- Move constructor `frame_ref(frame_ref&& other)` (lines 80-83). Returns the new handle and
`other` after the move. -/
def move_ctor (other : frame_ref) : frame_ref × frame_ref :=
  (⟨other.frame_ptr⟩, { other with frame_ptr := none })

/-- Member `void swap(frame_ref& other)` (lines 96-99). Returns `(this, other)` after the
swap. -/
def swap (self other : frame_ref) : frame_ref × frame_ref :=
  (⟨other.frame_ptr⟩, ⟨self.frame_ptr⟩)

/-- Destructor `~frame_ref()` (lines 91-94): `if (frame_ptr) frame_ptr->release();`. -/
def dtor (m : Mem) (self : frame_ref) : Mem :=
  match self.frame_ptr with
  | some p => m.release p
  | none => m

/-- Assignment `frame_ref& operator =(frame_ref other)` (lines 85-89): the by-value parameter
`other` is swapped with `*this` and destroyed when the call is over. Returns the memory and
`*this` after the assignment. -/
def assign (m : Mem) (self other : frame_ref) : Mem × frame_ref :=
  let s := swap self other
  (dtor m s.2, s.1)

/-- Copy assignment `a = b`: the parameter of `operator=` is copy-constructed from `b`.
Returns the memory, `a` and `b` after the assignment. -/
def copy_assign (m : Mem) (a b : frame_ref) : Mem × frame_ref × frame_ref :=
  let c := copy_ctor m b
  let r := assign c.1 a c.2
  (r.1, r.2, b)

/-- Move assignment `a = std::move(b)` for distinct objects `a` and `b`: the parameter of
`operator=` is move-constructed from `b`. Returns the memory, `a` and `b` afterwards. -/
def move_assign (m : Mem) (a b : frame_ref) : Mem × frame_ref × frame_ref :=
  let c := move_ctor b
  let r := assign m a c.1
  (r.1, r.2, c.2)

/-- Copy of an array of handles, element by element in index order: every element is
copy-constructed from the element at the same index. -/
def copy_array (m : Mem) : List frame_ref → Mem × List frame_ref
  | [] => (m, [])
  | r :: rs =>
    let c := copy_ctor m r
    let t := copy_array c.1 rs
    (t.1, c.2 :: t.2)

/-- Destruction of an array of handles: the elements are destroyed in reverse index order. -/
def dtor_array (m : Mem) : List frame_ref → Mem
  | [] => m
  | r :: rs => dtor (dtor_array m rs) r

end frame_ref

/-- Class `frame_archive::frameset` (lines 107-122): `frame_ref buffer[RS_STREAM_NATIVE_COUNT]`,
one slot per native stream. The constant is declared outside the sources; the length of
`buffer` stands for it. -/
structure frameset where
  buffer : List frame_ref
  deriving DecidableEq, Repr

namespace frameset

/-- Implicit default constructor for `n` native streams: every slot is `frame_ref()`. -/
def default_ctor (n : Nat) : frameset :=
  ⟨List.replicate n frame_ref.default_ctor⟩

/-- Implicit copy constructor: member-wise, every slot is copy-constructed from the slot of
`other` for the same stream. -/
def copy_ctor (m : Mem) (other : frameset) : Mem × frameset :=
  let c := frame_ref.copy_array m other.buffer
  (c.1, ⟨c.2⟩)

/-- Slot-by-slot copy assignment `dst[k] = src[k]`, in index order. -/
def assign_array (m : Mem) : List frame_ref → List frame_ref → Mem × List frame_ref
  | a :: dst, b :: src =>
    let r := frame_ref.copy_assign m a b
    let t := assign_array r.1 dst src
    (t.1, r.2.1 :: t.2)
  | dst, [] => (m, dst)
  | [], _ :: _ => (m, [])

/-- Implicit copy assignment `*this = other`: member-wise, every slot is copy-assigned from the
slot of `other` for the same stream. Returns the memory and `*this` afterwards. -/
def copy_assign (m : Mem) (self other : frameset) : Mem × frameset :=
  let c := assign_array m self.buffer other.buffer
  (c.1, ⟨c.2⟩)

/-- Implicit destructor: the slots are destroyed, last stream first. -/
def dtor (m : Mem) (self : frameset) : Mem :=
  frame_ref.dtor_array m self.buffer

end frameset

/-- The failures of the spec's section 7. -/
inductive PoolError where
  | PoolExhausted
  | InvalidHandle
  deriving DecidableEq, Repr

/-- Modelled from the spec: `FixedPool<T,N>` (`small_heap<T,N>` of types.h, which is not among
the sources): pre-allocated storage for up to `N` live `T` instances, with no dynamic growth.
Slot `i` is `some v` when it holds the live object `v` and `none` when it is free; a pointer
into the pool is the index of its slot. -/
structure FixedPool (T : Type) (N : Nat) where
  slots : List (Option T)
  size_eq : slots.length = N

namespace FixedPool

variable {T : Type} {N : Nat}

/-- The pool with all `N` slots free. -/
def empty (T : Type) (N : Nat) : FixedPool T N :=
  ⟨List.replicate N none, List.length_replicate N none⟩

/-- Number of live objects. -/
def live (pool : FixedPool T N) : Nat :=
  pool.slots.countP Option.isSome

/-- Index of the first free slot, if there is one. -/
def free_slot : List (Option T) → Option Nat
  | [] => none
  | none :: _ => some 0
  | some _ :: rest => (free_slot rest).map (· + 1)

/-- The live object a pointer designates: `none` for a null pointer, a pointer outside the
pool, or a free slot. -/
def get (pool : FixedPool T N) (ptr : Option Nat) : Option T :=
  match ptr with
  | none => none
  | some i => (pool.slots[i]?).join

/-- Modelled from the spec: `allocate(args)` gives a pointer to a newly constructed `T` in a
free slot, or fails with `PoolExhausted` when all `N` slots are occupied. `v` is the
constructed object. Returns the pool afterwards and the outcome. -/
def allocate (pool : FixedPool T N) (v : T) : FixedPool T N × Except PoolError Nat :=
  match free_slot pool.slots with
  | some i =>
    (⟨pool.slots.set i (some v), by rw [List.length_set]; exact pool.size_eq⟩, Except.ok i)
  | none => (pool, Except.error PoolError.PoolExhausted)

/-- Modelled from the spec: `deallocate(ptr)` returns the slot to the free set, and fails with
`InvalidHandle` if `ptr` does not belong to this pool or is already free. Returns the pool
afterwards and, on success, the object that occupied the slot (its life ends here). -/
def deallocate (pool : FixedPool T N) (ptr : Option Nat) : FixedPool T N × Except PoolError T :=
  match ptr, pool.get ptr with
  | some i, some v =>
    (⟨pool.slots.set i none, by rw [List.length_set]; exact pool.size_eq⟩, Except.ok v)
  | _, _ => (pool, Except.error PoolError.InvalidHandle)

end FixedPool

/-- Modelled from the spec: the pixel format of a mode. Its declaration is in types.h, which is
not among the sources; archive.h reads its member `fourcc`, which is 0 for a stream that is
not configured. -/
structure pixel_format where
  fourcc : Nat
  deriving DecidableEq, Repr

/-- Modelled from the spec: a subdevice mode (types.h, not among the sources); archive.h reads
its member `pf`. -/
structure subdevice_mode where
  pf : pixel_format
  deriving DecidableEq, Repr

/-- Modelled from the spec: `subdevice_mode_selection` (types.h, not among the sources), the
entry of the per-stream configuration table; archive.h reads its member `mode`. -/
structure subdevice_mode_selection where
  mode : subdevice_mode
  deriving DecidableEq, Repr

/-- Class `frame_archive` (lines 14-168), its data members in declaration order:
`modes[RS_STREAM_NATIVE_COUNT]` (the configuration table), the three pools
`published_frames`, `published_sets` and `detached_refs` of capacity `RS_USER_QUEUE_SIZE`,
`backbuffer[RS_STREAM_NATIVE_COUNT]` and `freelist`. `N` stands for `RS_USER_QUEUE_SIZE`
and the length of `modes` for `RS_STREAM_NATIVE_COUNT`; both constants are declared outside
the sources. The frame objects of `published_frames` are the frames of `Mem` at the addresses
of its slots (a `frame*` into the pool is the index of the slot), so that handles can point
to them; the pool itself records which slots are live. The mutex is not modelled. -/
structure frame_archive (N : Nat) where
  modes : List subdevice_mode_selection
  published_frames : FixedPool Unit N
  published_sets : FixedPool frameset N
  detached_refs : FixedPool frame_ref N
  backbuffer : List frame
  freelist : List frame

namespace frame_archive

variable {N : Nat}

/-- Member `release_frameset` (lines 144-147): `published_sets.deallocate(frameset);`.
Modelled from the spec: the pool is not among the sources; by the spec the call releases
every slot of the set and returns the set object to its pool. The object that leaves the pool
is destroyed, which runs the destructor of each of its slots. -/
def release_frameset (m : Mem) (a : frame_archive N) (frameset : Option Nat) :
    Mem × frame_archive N × Except PoolError Unit :=
  match a.published_sets.deallocate frameset with
  | (pool, Except.ok fs) => (fs.dtor m, { a with published_sets := pool }, Except.ok ())
  | (_, Except.error e) => (m, a, Except.error e)

/-- Modelled from the spec: `clone_frameset` is only declared in archive.h (line 148). By the
spec it duplicates the set, incrementing the count of every slot, into an object of the
frameset pool; an exhausted pool is a `PoolExhausted` failure and a pointer that designates no
live set an `InvalidHandle` failure, both without any other effect. -/
def clone_frameset (m : Mem) (a : frame_archive N) (frameset : Option Nat) :
    Mem × frame_archive N × Except PoolError Nat :=
  match a.published_sets.get frameset with
  | none => (m, a, Except.error PoolError.InvalidHandle)
  | some fs =>
    match FixedPool.free_slot a.published_sets.slots with
    | none => (m, a, Except.error PoolError.PoolExhausted)
    | some _ =>
      let c := fs.copy_ctor m
      let r := a.published_sets.allocate c.2
      (c.1, { a with published_sets := r.1 }, r.2)

/-- Member `release_frame_ref` (lines 155-158): `detached_refs.deallocate(ref);`, modelled as
`release_frameset` is: the handle that leaves the pool is destroyed. -/
def release_frame_ref (m : Mem) (a : frame_archive N) (ref : Option Nat) :
    Mem × frame_archive N × Except PoolError Unit :=
  match a.detached_refs.deallocate ref with
  | (pool, Except.ok r) => (r.dtor m, { a with detached_refs := pool }, Except.ok ())
  | (_, Except.error e) => (m, a, Except.error e)

end frame_archive

/-- Number of handles of a list whose target is the frame at address `p`. -/
def targeting (p : Nat) (hs : List frame_ref) : Nat :=
  hs.countP (fun h => decide (h.frame_ptr = some p))

/-! ## A program's live handles -/

/-- The frame memory together with the `frame_ref` objects that are alive, in a table
indexed by position. -/
structure Store where
  mem : Mem
  handles : List frame_ref

/-- The operations of `frame_ref` on the live handles; `i` and `j` are positions in the
table of live handles. -/
inductive RefOp where
  | construct (frame : Option Nat)
  | copy_construct (i : Nat)
  | move_construct (i : Nat)
  | copy_assign (i j : Nat)
  | move_assign (i j : Nat)
  | swap (i j : Nat)
  | destroy (i : Nat)
  deriving DecidableEq, Repr

namespace Store

/-- One operation on the live handles. An operation that names a position with no live handle
does nothing.
* `construct frame`: a new handle `frame_ref(frame)`;
* `copy_construct i`: a new handle copy-constructed from handle `i`;
* `move_construct i`: a new handle move-constructed from handle `i`;
* `copy_assign i j`: `h_i = h_j`;
* `move_assign i j`: `h_i = std::move(h_j)`: the parameter is move-constructed from `h_j`
  first, then `operator=` runs on `h_i`;
* `swap i j`: `h_i.swap(h_j)`;
* `destroy i`: the destructor of handle `i` runs and the handle leaves the table. -/
def step (s : Store) : RefOp → Store
  | RefOp.construct frame =>
    let c := frame_ref.from_frame s.mem frame
    { mem := c.1, handles := s.handles ++ [c.2] }
  | RefOp.copy_construct i =>
    match s.handles[i]? with
    | none => s
    | some other =>
      let c := frame_ref.copy_ctor s.mem other
      { mem := c.1, handles := s.handles ++ [c.2] }
  | RefOp.move_construct i =>
    match s.handles[i]? with
    | none => s
    | some other =>
      let c := frame_ref.move_ctor other
      { mem := s.mem, handles := s.handles.set i c.2 ++ [c.1] }
  | RefOp.copy_assign i j =>
    match s.handles[i]?, s.handles[j]? with
    | some a, some b =>
      let c := frame_ref.copy_ctor s.mem b
      let r := frame_ref.assign c.1 a c.2
      { mem := r.1, handles := s.handles.set i r.2 }
    | _, _ => s
  | RefOp.move_assign i j =>
    match s.handles[j]? with
    | none => s
    | some b =>
      let c := frame_ref.move_ctor b
      let hs := s.handles.set j c.2
      match hs[i]? with
      | none => s
      | some a =>
        let r := frame_ref.assign s.mem a c.1
        { mem := r.1, handles := hs.set i r.2 }
  | RefOp.swap i j =>
    match s.handles[i]?, s.handles[j]? with
    | some a, some b =>
      let w := frame_ref.swap a b
      { mem := s.mem, handles := (s.handles.set i w.1).set j w.2 }
    | _, _ => s
  | RefOp.destroy i =>
    match s.handles[i]? with
    | none => s
    | some a => { mem := frame_ref.dtor s.mem a, handles := s.handles.eraseIdx i }

/-- A finite sequence of operations, run from left to right. -/
def run (s : Store) (ops : List RefOp) : Store :=
  ops.foldl step s

/-- The starting point: the given frames, no call made yet and no live handle. -/
def init (frames : Nat → frame) : Store :=
  { mem := { frames := frames, calls := [], released := [] }, handles := [] }

end Store

/-- The call of `acquire` a handle's target receives when the handle is adopted: one call
when the target is a frame, none when the handle is null. -/
def acquire_calls (h : frame_ref) : List Call :=
  match h.frame_ptr with
  | some p => [Call.acquire p]
  | none => []

/-- The call of `release` a handle's target receives when the handle gives it up: one call
when the target is a frame, none when the handle is null. -/
def release_calls (h : frame_ref) : List Call :=
  match h.frame_ptr with
  | some p => [Call.release p]
  | none => []

/-- One when the handle targets the frame at address `q`, zero otherwise. -/
def targets (h : frame_ref) (q : Nat) : Int :=
  if h.frame_ptr = some q then 1 else 0

/-- A memory in which every frame is default-constructed except for its count `c`. -/
def Mem.uniform (c : Int) : Mem :=
  { frames := fun _ => { frame.default_ctor with ref_count := c }, calls := [], released := [] }

/-- Every count is the number of live handles on the frame. -/
def Store.Counted (s : Store) : Prop :=
  ∀ p, s.mem.count p = targeting p s.handles

/-- The acquire calls made when the slots of a list are adopted in index order. -/
def acquire_calls_of (hs : List frame_ref) : List Call :=
  hs.flatMap acquire_calls

/-- The release calls made when the slots of a list are destroyed, last slot first. -/
def release_calls_of (hs : List frame_ref) : List Call :=
  hs.reverse.flatMap release_calls

/-- The scenario of the spec's section 8: clone the set `frameset`, release the original, then
release the clone (when the clone failed there is no second release). Returns the memory and
the archive at the end and the three outcomes. -/
def frame_archive.clone_then_release_both {N : Nat} (m : Mem) (a : frame_archive N)
    (frameset : Option Nat) :
    Mem × frame_archive N × Except PoolError Nat × Except PoolError Unit
      × Except PoolError Unit :=
  let r1 := frame_archive.clone_frameset m a frameset
  let r2 := frame_archive.release_frameset r1.1 r1.2.1 frameset
  match r1.2.2 with
  | Except.ok c =>
    let r3 := frame_archive.release_frameset r2.1 r2.2.1 (some c)
    (r3.1, r3.2.1, r1.2.2, r2.2.2, r3.2.2)
  | Except.error e => (r2.1, r2.2.1, r1.2.2, r2.2.2, Except.error e)

/-- A pool whose `N` slots all hold the object `v`. -/
def FixedPool.full {T : Type} (v : T) (N : Nat) : FixedPool T N :=
  ⟨List.replicate N (some v), List.length_replicate N (some v)⟩

/-- A frame set for three streams: the first and the last slot target the frame at address 0,
the middle slot is null. -/
def frameset.sample : frameset :=
  ⟨[⟨some 0⟩, ⟨none⟩, ⟨some 0⟩]⟩

/-- An archive for three streams with pools of capacity 2: the first and the last stream are
not configured (fourcc 0), the middle one is; `frameset.sample` is live in slot 0 of the
frameset pool and nothing else is live. -/
def frame_archive.sample : frame_archive 2 :=
  { modes := [⟨⟨⟨0⟩⟩⟩, ⟨⟨⟨844715353⟩⟩⟩, ⟨⟨⟨0⟩⟩⟩]
    published_frames := FixedPool.empty Unit 2
    published_sets := ⟨[some frameset.sample, none], rfl⟩
    detached_refs := FixedPool.empty frame_ref 2
    backbuffer := [frame.default_ctor, frame.default_ctor, frame.default_ctor]
    freelist := [] }

/-- Member `is_stream_enabled` (line 141): `return modes[stream].mode.pf.fourcc != 0;`. The
index is not checked; `none` stands for a look-up outside the table. -/
def frame_archive.is_stream_enabled {N : Nat} (a : frame_archive N) (stream : Nat) :
    Option Bool :=
  (a.modes[stream]?).map (fun s => s.mode.pf.fourcc != 0)

/-- Member `get_mode` (line 142): `return modes[stream];`. The index is not checked; `none`
stands for a look-up outside the table. -/
def frame_archive.get_mode {N : Nat} (a : frame_archive N) (stream : Nat) :
    Option subdevice_mode_selection :=
  a.modes[stream]?

/-- Modelled from the spec: `frame_ref::get_frame_data` is only declared in archive.h
(line 101). By the spec a handle exposes a read-only view of the buffer of its frame; a null
handle has no frame to read (`none`). -/
def frame_ref.get_frame_data (m : Mem) (self : frame_ref) : Option (List byte) :=
  self.frame_ptr.map (fun p => (m.frames p).data)

/-- Modelled from the spec: `frame_ref::get_frame_timestamp` (declared at line 102): the
timestamp of the frame of the handle; `none` for a null handle. -/
def frame_ref.get_frame_timestamp (m : Mem) (self : frame_ref) : Option Int :=
  self.frame_ptr.map (fun p => (m.frames p).timestamp)

/-- Modelled from the spec: `frame_ref::get_frame_number` (declared at line 103): the frame
number of the frame of the handle; `none` for a null handle. -/
def frame_ref.get_frame_number (m : Mem) (self : frame_ref) : Option Int :=
  self.frame_ptr.map (fun p => (m.frames p).frame_number)

/-- Modelled from the spec: `frame_ref::get_frame_system_time` (declared at line 104): the
system time of the frame of the handle; `none` for a null handle. -/
def frame_ref.get_frame_system_time (m : Mem) (self : frame_ref) : Option Int :=
  self.frame_ptr.map (fun p => (m.frames p).system_time)

/-- Member `frameset::get_frame_data` (line 115): `return buffer[stream].get_frame_data();`.
The index is not checked; the outer `none` stands for a look-up outside `buffer`. -/
def frameset.get_frame_data (m : Mem) (self : frameset) (stream : Nat) :
    Option (Option (List byte)) :=
  (self.buffer[stream]?).map (frame_ref.get_frame_data m)

/-- Member `frameset::get_frame_timestamp` (line 116). -/
def frameset.get_frame_timestamp (m : Mem) (self : frameset) (stream : Nat) :
    Option (Option Int) :=
  (self.buffer[stream]?).map (frame_ref.get_frame_timestamp m)

/-- Member `frameset::get_frame_number` (line 117). -/
def frameset.get_frame_number (m : Mem) (self : frameset) (stream : Nat) :
    Option (Option Int) :=
  (self.buffer[stream]?).map (frame_ref.get_frame_number m)

/-- Member `frameset::get_frame_system_time` (line 118). -/
def frameset.get_frame_system_time (m : Mem) (self : frameset) (stream : Nat) :
    Option (Option Int) :=
  (self.buffer[stream]?).map (frame_ref.get_frame_system_time m)

/-- Modelled from the spec: `publish_frame` is only declared in archive.h (line 151). By the
spec it moves a filled frame into the frame pool and returns a stable pointer to it; an
exhausted pool is a `PoolExhausted` failure with no other effect. The frame of the pool slot
is move-constructed from `f`. -/
def frame_archive.publish_frame {N : Nat} (m : Mem) (a : frame_archive N) (f : frame) :
    Mem × frame_archive N × Except PoolError Nat :=
  match a.published_frames.allocate () with
  | (pool, Except.ok p) =>
    ({ m with frames := Function.update m.frames p (frame.move_ctor f).1 },
      { a with published_frames := pool }, Except.ok p)
  | (_, Except.error e) => (m, a, Except.error e)

/-- Modelled from the spec: `unpublish_frame` is only declared in archive.h (line 150). By the
spec it forcibly returns a frame to the freelist, bypassing the reference count: the frame
at the pointer is moved to the end of the freelist and its slot goes back to the pool. A
pointer that designates no live frame of the pool is an `InvalidHandle` failure with no
other effect. -/
def frame_archive.unpublish_frame {N : Nat} (m : Mem) (a : frame_archive N)
    (ptr : Option Nat) : Mem × frame_archive N × Except PoolError Unit :=
  match ptr, a.published_frames.deallocate ptr with
  | some p, (pool, Except.ok _) =>
    let r := frame.move_ctor (m.frames p)
    ({ m with frames := Function.update m.frames p r.2 },
      { a with published_frames := pool, freelist := a.freelist ++ [r.1] }, Except.ok ())
  | _, (_, Except.error e) => (m, a, Except.error e)
  | none, (_, Except.ok _) => (m, a, Except.error PoolError.InvalidHandle)

/-- Modelled from the spec: `frameset::place_frame` is only declared in archive.h (line 113). By
the spec it moves a newly published frame's ownership into the slot of the stream, replacing
any prior occupant, which is released first. The frame is published in the archive `a`, the
prior occupant of the slot is released, and the slot becomes a handle on the published
frame. When the frame cannot be published nothing changes and the failure is returned. The
index is not checked; `none` stands for a stream outside `buffer`. -/
def frameset.place_frame {N : Nat} (m : Mem) (a : frame_archive N) (self : frameset)
    (stream : Nat) (new_frame : frame) :
    Option (Mem × frame_archive N × frameset × Except PoolError Unit) :=
  match self.buffer[stream]? with
  | none => none
  | some prior =>
    match a.publish_frame m new_frame with
    | (m1, a1, Except.ok p) =>
      let m2 := frame_ref.dtor m1 prior
      let c := frame_ref.from_frame m2 (some p)
      some (c.1, a1, ⟨self.buffer.set stream c.2⟩, Except.ok ())
    | (_, _, Except.error e) => some (m, a, self, Except.error e)

/-- Modelled from the spec: `frameset::detach_ref` is only declared in archive.h (line 112). By
the spec it removes and returns the handle of the slot and leaves the slot null: the result
is move-constructed from the slot (lines 80-83). Returns the handle and the set afterwards.
The index is not checked; `none` stands for a stream outside `buffer`. -/
def frameset.detach_ref (self : frameset) (stream : Nat) : Option (frame_ref × frameset) :=
  match self.buffer[stream]? with
  | none => none
  | some slot =>
    let c := frame_ref.move_ctor slot
    some (c.1, ⟨self.buffer.set stream c.2⟩)

/-- The memory after `frameset.sample.place_frame` of `frame.sample 0` for stream 2 in the
archive `frame_archive.sample`, starting from `Mem.uniform 1`: the frame is published at
address 0, the prior occupant of the slot (a handle on address 0) is released and the new
handle acquires the published frame. -/
def Mem.sample_placed : Mem :=
  (frame_ref.from_frame
    (frame_ref.dtor
      (frame_archive.publish_frame (Mem.uniform 1) frame_archive.sample (frame.sample 0)).1
      ⟨some 0⟩)
    (some 0)).1

/-- The bound under which no acquire of a run wraps around: whenever an operation of the
sequence starts, every frame has fewer than `INT_MAX` live handles. -/
def Store.Below : Store → List RefOp → Prop
  | _, [] => True
  | s, op :: t => (∀ p, (targeting p s.handles : Int) < INT_MAX) ∧ Store.Below (s.step op) t

/-- The starting point with default-constructed frames: every count is 0 and no handle is
alive. -/
def Store.start : Store :=
  Store.init (fun _ => frame.default_ctor)

/-- A frame set with a single slot, which targets the frame at address 0. -/
def frameset.single : frameset :=
  ⟨[⟨some 0⟩]⟩

/-- An archive for one stream with pools of capacity 2: `frameset.single` is live in slot 0 of
the frameset pool and nothing else is live. -/
def frame_archive.single : frame_archive 2 :=
  { modes := [⟨⟨⟨844715353⟩⟩⟩]
    published_frames := FixedPool.empty Unit 2
    published_sets := ⟨[some frameset.single, none], rfl⟩
    detached_refs := FixedPool.empty frame_ref 2
    backbuffer := [frame.default_ctor]
    freelist := [] }

/-! ## Theorems -/

/-! ### Counts after a call -/

theorem int_wrap_of_int (x : Int) (h1 : INT_MIN ≤ x) (h2 : x ≤ INT_MAX) : int_wrap x = x := by
  unfold INT_MIN at h1
  unfold INT_MAX at h2
  unfold int_wrap
  omega

theorem int_wrap_succ (x : Int) : int_wrap (int_wrap x + 1) = int_wrap (x + 1) := by
  unfold int_wrap
  omega

theorem int_wrap_is_int (x : Int) : INT_MIN ≤ int_wrap x ∧ int_wrap x ≤ INT_MAX := by
  unfold INT_MIN INT_MAX int_wrap
  omega

theorem Mem.count_acquire_wrap (m : Mem) (p q : Nat) :
    (m.acquire p).count q = if q = p then int_wrap (m.count q + 1) else m.count q := by
  by_cases h : q = p
  · subst h; simp [Mem.acquire, Mem.count, frame.acquire]
  · simp [Mem.acquire, Mem.count, Function.update_noteq h, h]

theorem Mem.count_acquire (m : Mem) (p q : Nat) (h1 : INT_MIN ≤ m.count p)
    (h2 : m.count p < INT_MAX) :
    (m.acquire p).count q = m.count q + (if q = p then 1 else 0) := by
  rw [Mem.count_acquire_wrap]
  by_cases h : q = p
  · subst h
    have h3 : m.count q + 1 ≤ INT_MAX := by omega
    simp [int_wrap_of_int (m.count q + 1) (by omega) h3]
  · simp [h]

theorem Mem.count_release (m : Mem) (p q : Nat) :
    (m.release p).count q = m.count q - (if q = p then 1 else 0) := by
  by_cases h : q = p
  · subst h
    simp only [Mem.release, Mem.count, frame.release, Function.update_same, if_true]
    split <;> rfl
  · simp [Mem.release, Mem.count, Function.update_noteq h, h]

theorem Mem.calls_acquire (m : Mem) (p : Nat) :
    (m.acquire p).calls = m.calls ++ [Call.acquire p] := rfl

theorem Mem.calls_release (m : Mem) (p : Nat) :
    (m.release p).calls = m.calls ++ [Call.release p] := rfl

/-- C2, as the code has it: constructing a handle from a non-null frame pointer, or
copy-constructing it from a handle with a non-null target, gives a handle to that frame,
makes exactly one call (an acquire of that frame) and leaves every other count as it was.
The count of the frame becomes the wrapped successor of what it was: it rises by exactly one
when it is an `int` below `INT_MAX`. From a null pointer or a null handle the result is a
null handle and the memory is untouched. In the table of live handles the copied handle (and
every other one) is still what it was. -/
theorem frame_ref_construct_and_copy (m : Mem) (p : Nat) :
    ((frame_ref.from_frame m (some p)).2.frame_ptr = some p
      ∧ (frame_ref.from_frame m (some p)).1.calls = m.calls ++ [Call.acquire p]
      ∧ (frame_ref.from_frame m (some p)).1.count p = int_wrap (m.count p + 1)
      ∧ (INT_MIN ≤ m.count p → m.count p < INT_MAX →
          (frame_ref.from_frame m (some p)).1.count p = m.count p + 1)
      ∧ ∀ q, q ≠ p → (frame_ref.from_frame m (some p)).1.count q = m.count q)
    ∧ ((frame_ref.copy_ctor m ⟨some p⟩).2.frame_ptr = some p
      ∧ (frame_ref.copy_ctor m ⟨some p⟩).1.calls = m.calls ++ [Call.acquire p]
      ∧ (frame_ref.copy_ctor m ⟨some p⟩).1.count p = int_wrap (m.count p + 1)
      ∧ (INT_MIN ≤ m.count p → m.count p < INT_MAX →
          (frame_ref.copy_ctor m ⟨some p⟩).1.count p = m.count p + 1)
      ∧ ∀ q, q ≠ p → (frame_ref.copy_ctor m ⟨some p⟩).1.count q = m.count q)
    ∧ frame_ref.from_frame m none = (m, ⟨none⟩)
    ∧ frame_ref.copy_ctor m ⟨none⟩ = (m, ⟨none⟩)
    ∧ (∀ (hs : List frame_ref) (i : Nat) (other : frame_ref), hs[i]? = some other →
        (Store.step ⟨m, hs⟩ (RefOp.copy_construct i)).handles
          = hs ++ [(frame_ref.copy_ctor m other).2]) := by
  refine ⟨⟨rfl, rfl, ?_, ?_, ?_⟩, ⟨rfl, rfl, ?_, ?_, ?_⟩, rfl, rfl, ?_⟩
  · simp [frame_ref.from_frame, Mem.count_acquire_wrap]
  · intro h1 h2
    simp [frame_ref.from_frame, Mem.count_acquire m p p h1 h2]
  · intro q hq
    simp [frame_ref.from_frame, Mem.count_acquire_wrap, hq]
  · simp [frame_ref.copy_ctor, Mem.count_acquire_wrap]
  · intro h1 h2
    simp [frame_ref.copy_ctor, Mem.count_acquire m p p h1 h2]
  · intro q hq
    simp [frame_ref.copy_ctor, Mem.count_acquire_wrap, hq]
  · intro hs i other h
    simp [Store.step, h]

theorem frame_ref_construct_and_copy_witness :
    [(⟨some 0⟩ : frame_ref)][0]? = some ⟨some 0⟩
    ∧ INT_MIN ≤ (Mem.uniform 1).count 0 ∧ (Mem.uniform 1).count 0 < INT_MAX
    ∧ (Store.step ⟨Mem.uniform 1, [⟨some 0⟩]⟩ (RefOp.copy_construct 0)).handles
        = [⟨some 0⟩] ++ [(frame_ref.copy_ctor (Mem.uniform 1) ⟨some 0⟩).2]
    ∧ (frame_ref.from_frame (Mem.uniform 1) (some 0)).1.count 0 = (Mem.uniform 1).count 0 + 1
    ∧ (frame_ref.copy_ctor (Mem.uniform 1) ⟨some 0⟩).1.count 0 = (Mem.uniform 1).count 0 + 1 :=
  ⟨rfl, by decide, by decide,
    (frame_ref_construct_and_copy (Mem.uniform 1) 0).2.2.2.2 [⟨some 0⟩] 0 ⟨some 0⟩ rfl,
    (frame_ref_construct_and_copy (Mem.uniform 1) 0).1.2.2.2.1 (by decide) (by decide),
    (frame_ref_construct_and_copy (Mem.uniform 1) 0).2.1.2.2.2.1 (by decide) (by decide)⟩

/-- C2 fails as stated: on a frame whose count is `INT_MAX` = 2147483647, constructing a handle
from its pointer, or copying a handle on it, leaves the count at -2147483648 (the atomic
addition wraps around), not at 2147483648: the count did not rise by one. -/
theorem frame_ref_acquire_wraps :
    (Mem.uniform 2147483647).count 0 = 2147483647
    ∧ (frame_ref.from_frame (Mem.uniform 2147483647) (some 0)).1.count 0 = -2147483648
    ∧ (frame_ref.copy_ctor (Mem.uniform 2147483647) ⟨some 0⟩).1.count 0 = -2147483648
    ∧ ¬ ((frame_ref.from_frame (Mem.uniform 2147483647) (some 0)).1.count 0
          = (Mem.uniform 2147483647).count 0 + 1)
    ∧ ¬ ((frame_ref.copy_ctor (Mem.uniform 2147483647) ⟨some 0⟩).1.count 0
          = (Mem.uniform 2147483647).count 0 + 1) := by
  decide

/-- C3: move-constructing a handle from handle `i` of the table gives a new handle with the
former target of handle `i`, leaves handle `i` null and does not touch the frame memory: no
acquire, no release, every count as before. -/
theorem frame_ref_move_construct (s : Store) (i : Nat) (other : frame_ref)
    (h : s.handles[i]? = some other) :
    frame_ref.move_ctor other = (⟨other.frame_ptr⟩, ⟨none⟩)
    ∧ (s.step (RefOp.move_construct i)).handles
        = s.handles.set i ⟨none⟩ ++ [⟨other.frame_ptr⟩]
    ∧ (s.step (RefOp.move_construct i)).mem = s.mem
    ∧ (s.step (RefOp.move_construct i)).mem.calls = s.mem.calls
    ∧ ∀ q, (s.step (RefOp.move_construct i)).mem.count q = s.mem.count q := by
  refine ⟨rfl, ?_, ?_, ?_, ?_⟩ <;> simp [Store.step, h, frame_ref.move_ctor]

theorem frame_ref_move_construct_witness :
    (Store.mk (Mem.uniform 1) [⟨some 3⟩]).handles[0]? = some ⟨some 3⟩
    ∧ ((Store.mk (Mem.uniform 1) [⟨some 3⟩]).step (RefOp.move_construct 0)).handles
        = [⟨none⟩, ⟨some 3⟩]
    ∧ ∀ q, ((Store.mk (Mem.uniform 1) [⟨some 3⟩]).step (RefOp.move_construct 0)).mem.count q
        = (Mem.uniform 1).count q :=
  ⟨rfl,
    (frame_ref_move_construct (Store.mk (Mem.uniform 1) [⟨some 3⟩]) 0 ⟨some 3⟩ rfl).2.1,
    (frame_ref_move_construct (Store.mk (Mem.uniform 1) [⟨some 3⟩]) 0 ⟨some 3⟩ rfl).2.2.2.2⟩

theorem frame_ref.dtor_calls (m : Mem) (a : frame_ref) :
    (frame_ref.dtor m a).calls = m.calls ++ release_calls a := by
  rcases a with ⟨_ | p⟩ <;> simp [frame_ref.dtor, release_calls, Mem.calls_release]

theorem frame_ref.dtor_count (m : Mem) (a : frame_ref) (q : Nat) :
    (frame_ref.dtor m a).count q = m.count q - targets a q := by
  rcases a with ⟨_ | p⟩
  · simp [frame_ref.dtor, targets]
  · simp only [frame_ref.dtor, targets, Mem.count_release, Option.some.injEq]
    by_cases h : q = p
    · subst h; simp
    · have h2 : ¬ p = q := fun e => h e.symm
      simp [h, h2]

theorem frame_ref.copy_ctor_calls (m : Mem) (b : frame_ref) :
    (frame_ref.copy_ctor m b).1.calls = m.calls ++ acquire_calls b := by
  rcases b with ⟨_ | p⟩ <;> simp [frame_ref.copy_ctor, acquire_calls, Mem.calls_acquire]

theorem frame_ref.copy_ctor_count_wrap (m : Mem) (b : frame_ref) (q : Nat) :
    (frame_ref.copy_ctor m b).1.count q
      = if b.frame_ptr = some q then int_wrap (m.count q + 1) else m.count q := by
  rcases b with ⟨_ | p⟩
  · simp [frame_ref.copy_ctor]
  · simp only [frame_ref.copy_ctor, Mem.count_acquire_wrap, Option.some.injEq]
    by_cases h : q = p
    · subst h; simp
    · have h2 : ¬ p = q := fun e => h e.symm
      simp [h, h2]

theorem frame_ref.copy_ctor_count (m : Mem) (b : frame_ref) (q : Nat)
    (hq : b.frame_ptr = some q → INT_MIN ≤ m.count q ∧ m.count q < INT_MAX) :
    (frame_ref.copy_ctor m b).1.count q = m.count q + targets b q := by
  rw [frame_ref.copy_ctor_count_wrap]
  unfold targets
  by_cases h : b.frame_ptr = some q
  · obtain ⟨h1, h2⟩ := hq h
    have h3 : m.count q + 1 ≤ INT_MAX := by omega
    simp [h, int_wrap_of_int (m.count q + 1) (by omega) h3]
  · simp [h]

theorem frame_ref.copy_ctor_handle (m : Mem) (b : frame_ref) :
    (frame_ref.copy_ctor m b).2 = b := by
  rcases b with ⟨_ | p⟩ <;> rfl

theorem frame_ref.from_frame_count (m : Mem) (f : Option Nat) (q : Nat)
    (hq : f = some q → INT_MIN ≤ m.count q ∧ m.count q < INT_MAX) :
    (frame_ref.from_frame m f).1.count q = m.count q + targets ⟨f⟩ q := by
  have h := frame_ref.copy_ctor_count m ⟨f⟩ q hq
  cases f <;> exact h

/-- C4, as the code has it: destroying a handle calls release on its target once when the
target is a frame and does nothing when it is null. After `a = b` the handle `a` targets the
frame of `b`, `b` is what it was, and the calls made are one acquire of the target of `b` (if
any) followed by one release of the prior target of `a` (if any). After `a = std::move(b)`
the handle `a` targets the former frame of `b`, `b` is null, and the only call made is one
release of the prior target of `a` (if any): the count of a frame goes down by one exactly
when `a` targeted it before, so the count of the former frame of `b` is unchanged unless
`a` already targeted that frame. -/
theorem frame_ref_destroy_and_assign (m : Mem) (a b : frame_ref) :
    ((frame_ref.dtor m a).calls = m.calls ++ release_calls a
      ∧ (∀ q, (frame_ref.dtor m a).count q = m.count q - targets a q)
      ∧ frame_ref.dtor m ⟨none⟩ = m)
    ∧ ((frame_ref.copy_assign m a b).2.1.frame_ptr = b.frame_ptr
      ∧ (frame_ref.copy_assign m a b).2.2 = b
      ∧ (frame_ref.copy_assign m a b).1.calls
          = m.calls ++ acquire_calls b ++ release_calls a
      ∧ (∀ q, (frame_ref.copy_assign m a b).1.count q
          = (if b.frame_ptr = some q then int_wrap (m.count q + 1) else m.count q)
              - targets a q)
      ∧ ∀ q, (b.frame_ptr = some q → INT_MIN ≤ m.count q ∧ m.count q < INT_MAX) →
          (frame_ref.copy_assign m a b).1.count q = m.count q + targets b q - targets a q)
    ∧ ((frame_ref.move_assign m a b).2.1.frame_ptr = b.frame_ptr
      ∧ (frame_ref.move_assign m a b).2.2.frame_ptr = none
      ∧ (frame_ref.move_assign m a b).1.calls = m.calls ++ release_calls a
      ∧ ∀ q, (frame_ref.move_assign m a b).1.count q = m.count q - targets a q) := by
  refine ⟨⟨frame_ref.dtor_calls m a, frame_ref.dtor_count m a, rfl⟩,
    ⟨?_, rfl, ?_, ?_, ?_⟩, ⟨rfl, rfl, ?_, ?_⟩⟩
  · simp [frame_ref.copy_assign, frame_ref.assign, frame_ref.swap, frame_ref.copy_ctor_handle]
  · simp [frame_ref.copy_assign, frame_ref.assign, frame_ref.swap, frame_ref.dtor_calls,
      frame_ref.copy_ctor_calls, release_calls]
  · intro q
    simp [frame_ref.copy_assign, frame_ref.assign, frame_ref.swap, frame_ref.dtor_count,
      frame_ref.copy_ctor_count_wrap, targets]
  · intro q hq
    simp [frame_ref.copy_assign, frame_ref.assign, frame_ref.swap, frame_ref.dtor_count,
      frame_ref.copy_ctor_count m b q hq, targets]
  · simp [frame_ref.move_assign, frame_ref.assign, frame_ref.swap, frame_ref.dtor_calls,
      frame_ref.move_ctor, release_calls]
  · intro q
    simp [frame_ref.move_assign, frame_ref.assign, frame_ref.swap, frame_ref.dtor_count,
      frame_ref.move_ctor, targets]

theorem frame_ref_destroy_and_assign_witness :
    ((⟨some 0⟩ : frame_ref).frame_ptr = some 0 →
      INT_MIN ≤ (Mem.uniform 2).count 0 ∧ (Mem.uniform 2).count 0 < INT_MAX)
    ∧ (frame_ref.copy_assign (Mem.uniform 2) ⟨some 1⟩ ⟨some 0⟩).1.count 0
        = (Mem.uniform 2).count 0 + targets ⟨some 0⟩ 0 - targets ⟨some 1⟩ 0 :=
  ⟨fun _ => by decide,
    (frame_ref_destroy_and_assign (Mem.uniform 2) ⟨some 1⟩ ⟨some 0⟩).2.1.2.2.2.2 0
      (fun _ => by decide)⟩

/-- C4 fails as stated: with two handles `a` and `b` on the frame at address 0, whose count is
2, the move assignment `a = std::move(b)` leaves `a` on that frame and `b` null, and the
count of the frame is 1 afterwards, not 2. -/
theorem frame_ref_move_assign_same_target :
    (frame_ref.move_assign (Mem.uniform 2) ⟨some 0⟩ ⟨some 0⟩).2.1.frame_ptr = some 0
    ∧ (frame_ref.move_assign (Mem.uniform 2) ⟨some 0⟩ ⟨some 0⟩).2.2.frame_ptr = none
    ∧ (Mem.uniform 2).count 0 = 2
    ∧ (frame_ref.move_assign (Mem.uniform 2) ⟨some 0⟩ ⟨some 0⟩).1.count 0 = 1
    ∧ ¬ ((frame_ref.move_assign (Mem.uniform 2) ⟨some 0⟩ ⟨some 0⟩).1.count 0
          = (Mem.uniform 2).count 0) := by
  decide

/-- C5, at a source frame with one observer: the move constructor gives the new frame the
buffer, the metadata and the owner of the source, but its count is 0 and not 1; the count
of the source is 0 as well, so the observer is lost. -/
theorem frame_move_ctor_loses_count :
    (frame.sample 1).ref_count = 1
    ∧ (frame.move_ctor (frame.sample 1)).1 = frame.sample 0
    ∧ (frame.move_ctor (frame.sample 1)).1.ref_count = 0
    ∧ (frame.move_ctor (frame.sample 1)).2.ref_count = 0 := by
  decide

/-- The move constructor of `frame` on any source: everything but the count arrives; the new
count is 0 whatever the count of the source was. -/
theorem frame.move_ctor_fields (r : frame) :
    (frame.move_ctor r).1
      = { ref_count := 0, owner := r.owner, on_release := r.on_release, data := r.data,
          timestamp := r.timestamp, frame_number := r.frame_number,
          system_time := r.system_time }
    ∧ (frame.move_ctor r).2.ref_count = 0 :=
  ⟨rfl, rfl⟩

/-- C6: after `dst = std::move(src)` on distinct frames, `dst` has the data, timestamp, frame
number, system time, owner and continuation that `src` had, the count of `dst` is the count
`src` had, and the count of `src` is 0. -/
theorem frame_move_assign_transfers (dst src : frame) :
    (frame.move_assign dst src).1.data = src.data
    ∧ (frame.move_assign dst src).1.timestamp = src.timestamp
    ∧ (frame.move_assign dst src).1.frame_number = src.frame_number
    ∧ (frame.move_assign dst src).1.system_time = src.system_time
    ∧ (frame.move_assign dst src).1.owner = src.owner
    ∧ (frame.move_assign dst src).1.on_release = src.on_release
    ∧ (frame.move_assign dst src).1.ref_count = src.ref_count
    ∧ (frame.move_assign dst src).2.ref_count = 0 :=
  ⟨rfl, rfl, rfl, rfl, rfl, rfl, rfl, rfl⟩

/-! ### The observer-count invariant -/

theorem targeting_cons (p : Nat) (h : frame_ref) (hs : List frame_ref) :
    (targeting p (h :: hs) : Int) = targeting p hs + targets h p := by
  unfold targeting targets
  rw [List.countP_cons]
  by_cases e : h.frame_ptr = some p <;> simp [e]

theorem targeting_snoc (p : Nat) (hs : List frame_ref) (x : frame_ref) :
    (targeting p (hs ++ [x]) : Int) = targeting p hs + targets x p := by
  induction hs with
  | nil => simpa using targeting_cons p x []
  | cons h t ih =>
    rw [List.cons_append, targeting_cons, targeting_cons, ih]
    ring

theorem targeting_set (p : Nat) (x : frame_ref) :
    ∀ (hs : List frame_ref) (i : Nat) (h : frame_ref), hs[i]? = some h →
      (targeting p (hs.set i x) : Int) = targeting p hs - targets h p + targets x p
  | [], i, h, e => by simp at e
  | a :: t, 0, h, e => by
    simp only [List.getElem?_cons_zero, Option.some.injEq] at e
    subst e
    rw [List.set_cons_zero, targeting_cons, targeting_cons]
    ring
  | a :: t, i + 1, h, e => by
    simp only [List.getElem?_cons_succ] at e
    rw [List.set_cons_succ, targeting_cons, targeting_cons, targeting_set p x t i h e]
    ring

theorem targeting_eraseIdx (p : Nat) :
    ∀ (hs : List frame_ref) (i : Nat) (h : frame_ref), hs[i]? = some h →
      (targeting p (hs.eraseIdx i) : Int) = targeting p hs - targets h p
  | [], i, h, e => by simp at e
  | a :: t, 0, h, e => by
    simp only [List.getElem?_cons_zero, Option.some.injEq] at e
    subst e
    rw [List.eraseIdx_cons_zero, targeting_cons]
    ring
  | a :: t, i + 1, h, e => by
    simp only [List.getElem?_cons_succ] at e
    rw [List.eraseIdx_cons_succ, targeting_cons, targeting_cons, targeting_eraseIdx p t i h e]
    ring

theorem targets_null (q : Nat) : targets ⟨none⟩ q = 0 := by
  simp [targets]

theorem frame_ref.assign_count (m : Mem) (a other : frame_ref) (q : Nat) :
    (frame_ref.assign m a other).1.count q = m.count q - targets a q := by
  simp [frame_ref.assign, frame_ref.swap, frame_ref.dtor_count, targets]

theorem frame_ref.assign_handle (m : Mem) (a other : frame_ref) :
    (frame_ref.assign m a other).2 = other := rfl

theorem Store.counted_step (s : Store) (op : RefOp) (hs : s.Counted)
    (hb : ∀ p, (targeting p s.handles : Int) < INT_MAX) :
    (s.step op).Counted := by
  intro p
  have hp := hs p
  have hr : ∀ x : Option Nat, x = some p → INT_MIN ≤ s.mem.count p ∧ s.mem.count p < INT_MAX := by
    intro _ _
    have h1 := hb p
    have h2 : (0 : Int) ≤ targeting p s.handles := Int.natCast_nonneg _
    rw [hp]
    unfold INT_MIN
    exact ⟨by omega, h1⟩
  cases op with
  | construct f =>
    simp only [Store.step, frame_ref.from_frame_count s.mem f p (hr f), targeting_snoc, hp]
    cases f <;> rfl
  | copy_construct i =>
    simp only [Store.step]
    cases e : s.handles[i]? with
    | none => exact hp
    | some other =>
      simp only [frame_ref.copy_ctor_count s.mem other p (hr _), frame_ref.copy_ctor_handle,
        targeting_snoc, hp]
  | move_construct i =>
    simp only [Store.step]
    cases e : s.handles[i]? with
    | none => exact hp
    | some other =>
      simp only [frame_ref.move_ctor, targeting_snoc, targeting_set p _ _ _ _ e, hp,
        targets_null]
      simp [targets]
  | copy_assign i j =>
    simp only [Store.step]
    cases e : s.handles[i]? with
    | none => exact hp
    | some a =>
      cases e2 : s.handles[j]? with
      | none => exact hp
      | some b =>
        simp only [frame_ref.assign_count, frame_ref.assign_handle,
          frame_ref.copy_ctor_count s.mem b p (hr _), frame_ref.copy_ctor_handle,
          targeting_set p _ _ _ _ e, hp]
        ring
  | move_assign i j =>
    simp only [Store.step]
    cases e2 : s.handles[j]? with
    | none => exact hp
    | some b =>
      simp only []
      cases e : (s.handles.set j (frame_ref.move_ctor b).2)[i]? with
      | none => exact hp
      | some a =>
        have e3 : (s.handles.set j ⟨none⟩)[i]? = some a := e
        simp only [frame_ref.assign_count, frame_ref.assign_handle, frame_ref.move_ctor]
        rw [targeting_set p _ _ _ _ e3, targeting_set p _ _ _ _ e2, hp, targets_null]
        simp only [targets]
        ring
  | swap i j =>
    simp only [Store.step]
    cases e : s.handles[i]? with
    | none => exact hp
    | some a =>
      cases e2 : s.handles[j]? with
      | none => exact hp
      | some b =>
        simp only [frame_ref.swap]
        by_cases hij : i = j
        · subst hij
          rw [e] at e2
          simp only [Option.some.injEq] at e2
          subst e2
          rw [List.set_set, targeting_set p _ _ _ _ e, hp]
          simp [targets]
        · have e3 : (s.handles.set i ⟨b.frame_ptr⟩)[j]? = some b := by
            rw [List.getElem?_set_ne hij]; exact e2
          rw [targeting_set p _ _ _ _ e3, targeting_set p _ _ _ _ e, hp]
          simp [targets]
  | destroy i =>
    simp only [Store.step]
    cases e : s.handles[i]? with
    | none => exact hp
    | some a =>
      simp only [frame_ref.dtor_count, targeting_eraseIdx p _ _ _ e, hp]

theorem Store.counted_run (ops : List RefOp) :
    ∀ s : Store, s.Counted → s.Below ops → (s.run ops).Counted := by
  induction ops with
  | nil => intro s h _; exact h
  | cons op t ih =>
    intro s h hb
    exact ih (s.step op) (Store.counted_step s op h hb.1) hb.2

/-- C1, as the code has it: start from frames whose counts are all 0 and from no handle, and
run any finite sequence of handle operations (construct from a frame pointer, copy-construct,
move-construct, copy-assign, move-assign, swap, destroy) during which every frame has fewer
than `INT_MAX` live handles whenever an operation starts. Then the count of every frame is
the number of live handles that target it, and so it is not negative. -/
theorem observer_count_invariant (frames : Nat → frame) (h0 : ∀ p, (frames p).ref_count = 0)
    (ops : List RefOp) (hb : (Store.init frames).Below ops) (p : Nat) :
    ((Store.init frames).run ops).mem.count p = targeting p ((Store.init frames).run ops).handles
    ∧ 0 ≤ ((Store.init frames).run ops).mem.count p := by
  have h : ((Store.init frames).run ops).Counted := by
    apply Store.counted_run _ _ _ hb
    intro q
    simp [Store.init, Mem.count, targeting, h0 q]
  exact ⟨h p, by rw [h p]; exact Int.natCast_nonneg _⟩

theorem targeting_lt_of_length (p : Nat) (hs : List frame_ref) (h : hs.length < 2147483647) :
    (targeting p hs : Int) < INT_MAX := by
  have h1 : targeting p hs ≤ hs.length := List.countP_le_length _
  unfold INT_MAX
  omega

theorem observer_count_invariant_witness :
    (∀ p : Nat, ((fun (_ : Nat) => frame.default_ctor) p).ref_count = 0)
    ∧ Store.start.Below [RefOp.construct (some 0), RefOp.copy_construct 0, RefOp.destroy 0]
    ∧ (Store.start.run
          [RefOp.construct (some 0), RefOp.copy_construct 0, RefOp.destroy 0]).mem.count 0
        = targeting 0 (Store.start.run
            [RefOp.construct (some 0), RefOp.copy_construct 0, RefOp.destroy 0]).handles
    ∧ 0 ≤ (Store.start.run
          [RefOp.construct (some 0), RefOp.copy_construct 0, RefOp.destroy 0]).mem.count 0 :=
  ⟨fun _ => rfl,
    ⟨fun p => targeting_lt_of_length p _ (by decide),
      fun p => targeting_lt_of_length p _ (by decide),
      fun p => targeting_lt_of_length p _ (by decide), trivial⟩,
    observer_count_invariant (fun _ => frame.default_ctor) (fun _ => rfl)
      [RefOp.construct (some 0), RefOp.copy_construct 0, RefOp.destroy 0]
      ⟨fun p => targeting_lt_of_length p _ (by decide),
        fun p => targeting_lt_of_length p _ (by decide),
        fun p => targeting_lt_of_length p _ (by decide), trivial⟩ 0⟩

theorem int_wrap_add (x k : Int) : int_wrap (int_wrap x + k) = int_wrap (x + k) := by
  unfold int_wrap
  omega

theorem targeting_replicate (p n : Nat) :
    targeting p (List.replicate n (⟨some p⟩ : frame_ref)) = n := by
  induction n with
  | zero => rfl
  | succ k ih =>
    have h := targeting_cons p ⟨some p⟩ (List.replicate k ⟨some p⟩)
    rw [List.replicate_succ]
    simp only [targets, if_true] at h
    omega

theorem Store.run_constructs (p : Nat) :
    ∀ (n : Nat) (s : Store), INT_MIN ≤ s.mem.count p → s.mem.count p ≤ INT_MAX →
      (s.run (List.replicate n (RefOp.construct (some p)))).mem.count p
          = int_wrap (s.mem.count p + n)
      ∧ (s.run (List.replicate n (RefOp.construct (some p)))).handles
          = s.handles ++ List.replicate n ⟨some p⟩ := by
  intro n
  induction n with
  | zero =>
    intro s h1 h2
    have h3 : int_wrap (s.mem.count p + ((0 : Nat) : Int)) = s.mem.count p := by
      rw [Int.natCast_zero, Int.add_zero]
      exact int_wrap_of_int _ h1 h2
    rw [h3]
    exact ⟨rfl, (List.append_nil _).symm⟩
  | succ k ih =>
    intro s h1 h2
    have hstep : s.run (List.replicate (k + 1) (RefOp.construct (some p)))
        = (s.step (RefOp.construct (some p))).run
            (List.replicate k (RefOp.construct (some p))) := rfl
    have hc : (s.step (RefOp.construct (some p))).mem.count p = int_wrap (s.mem.count p + 1) := by
      simp [Store.step, frame_ref.from_frame, Mem.count_acquire_wrap]
    have hh : (s.step (RefOp.construct (some p))).handles = s.handles ++ [⟨some p⟩] := rfl
    have hr := int_wrap_is_int (s.mem.count p + 1)
    obtain ⟨i1, i2⟩ := ih (s.step (RefOp.construct (some p))) (by rw [hc]; exact hr.1)
      (by rw [hc]; exact hr.2)
    rw [hstep, i1, i2, hc, hh, int_wrap_add]
    constructor
    · congr 1
      push_cast
      ring
    · rw [List.append_assoc, List.replicate_succ]
      rfl

/-- C1 fails as stated: from frames with count 0 and no handle, construct 2147483648 handles
from the pointer to the frame at address 0. All of them are alive and target that frame, but
its count is -2147483648: the atomic addition of `acquire` has wrapped around, the count is
negative and is not the number of live handles. -/
theorem observer_count_wraps :
    (Store.start.run (List.replicate 2147483648 (RefOp.construct (some 0)))).mem.count 0
      = -2147483648
    ∧ targeting 0 (Store.start.run
        (List.replicate 2147483648 (RefOp.construct (some 0)))).handles = 2147483648
    ∧ (Store.start.run (List.replicate 2147483648 (RefOp.construct (some 0)))).mem.count 0
      < 0 := by
  have h := Store.run_constructs 0 2147483648 Store.start (by decide) (by decide)
  have h1 : (Store.start.run
      (List.replicate 2147483648 (RefOp.construct (some 0)))).mem.count 0 = -2147483648 :=
    h.1.trans (by decide)
  refine ⟨h1, ?_, ?_⟩
  · rw [h.2]
    exact targeting_replicate 0 2147483648
  · rw [h1]
    decide

/-! ### Fixed pools -/

theorem FixedPool.free_slot_some {T : Type} :
    ∀ (l : List (Option T)) (i : Nat), FixedPool.free_slot l = some i → l[i]? = some none
  | [], i, e => by simp [FixedPool.free_slot] at e
  | none :: t, i, e => by
    simp only [FixedPool.free_slot, Option.some.injEq] at e
    subst e
    simp
  | some v :: t, i, e => by
    simp only [FixedPool.free_slot] at e
    cases hk : FixedPool.free_slot t with
    | none => rw [hk] at e; simp at e
    | some k =>
      rw [hk] at e
      simp only [Option.map_some', Option.some.injEq] at e
      subst e
      simpa using FixedPool.free_slot_some t k hk

theorem FixedPool.free_slot_none {T : Type} :
    ∀ (l : List (Option T)), FixedPool.free_slot l = none → l.countP Option.isSome = l.length
  | [], _ => rfl
  | none :: t, e => by simp [FixedPool.free_slot] at e
  | some v :: t, e => by
    simp only [FixedPool.free_slot] at e
    cases hk : FixedPool.free_slot t with
    | some k => rw [hk] at e; simp at e
    | none =>
      have ih := FixedPool.free_slot_none t hk
      rw [List.countP_cons, ih]
      simp

theorem FixedPool.free_slot_isSome {T : Type} {N : Nat} (pool : FixedPool T N)
    (h : pool.live < N) : ∃ i, FixedPool.free_slot pool.slots = some i := by
  cases e : FixedPool.free_slot pool.slots with
  | some i => exact ⟨i, rfl⟩
  | none =>
    have h1 := FixedPool.free_slot_none pool.slots e
    rw [pool.size_eq] at h1
    unfold FixedPool.live at h
    omega

theorem FixedPool.free_slot_full {T : Type} :
    ∀ (l : List (Option T)), l.countP Option.isSome = l.length → FixedPool.free_slot l = none
  | [], _ => rfl
  | none :: t, e => by
    have h := List.countP_le_length Option.isSome (l := t)
    rw [List.countP_cons] at e
    simp only [Option.isSome_none, List.length_cons] at e
    simp at e
    omega
  | some v :: t, e => by
    rw [List.countP_cons] at e
    simp only [Option.isSome_some, List.length_cons, if_true, Nat.add_right_cancel_iff] at e
    simp only [FixedPool.free_slot, FixedPool.free_slot_full t e, Option.map_none']

theorem FixedPool.allocate_of_free {T : Type} {N : Nat} (pool : FixedPool T N) (v : T) (i : Nat)
    (e : FixedPool.free_slot pool.slots = some i) :
    (pool.allocate v).2 = Except.ok i
    ∧ (pool.allocate v).1.slots = pool.slots.set i (some v)
    ∧ i < N
    ∧ pool.get (some i) = none
    ∧ (pool.allocate v).1.get (some i) = some v
    ∧ (pool.allocate v).1.live = pool.live + 1 := by
  have hi := FixedPool.free_slot_some pool.slots i e
  have hlt : i < pool.slots.length := (List.getElem?_eq_some_iff.mp hi).1
  have hget : pool.slots[i] = none := (List.getElem?_eq_some_iff.mp hi).2
  have hal : pool.allocate v
      = (⟨pool.slots.set i (some v), by rw [List.length_set]; exact pool.size_eq⟩,
          Except.ok i) := by
    unfold FixedPool.allocate
    rw [e]
  refine ⟨by rw [hal], by rw [hal], pool.size_eq ▸ hlt, ?_, ?_, ?_⟩
  · simp [FixedPool.get, hi]
  · rw [hal]
    simp [FixedPool.get, hlt]
  · rw [hal]
    simp [FixedPool.live, List.countP_set _ _ _ _ hlt, hget]

/-- C10: in a pool of capacity `N`, an allocate made while fewer than `N` objects are live
succeeds: it returns a slot of the pool that was free, the slot now holds the new object and
one more object is live. An allocate made while `N` objects are live fails with
`PoolExhausted` and the pool is what it was. -/
theorem fixed_pool_capacity {T : Type} {N : Nat} (pool : FixedPool T N) (v : T) :
    (pool.live < N →
      ∃ i, (pool.allocate v).2 = Except.ok i ∧ i < N ∧ pool.get (some i) = none
        ∧ (pool.allocate v).1.get (some i) = some v
        ∧ (pool.allocate v).1.live = pool.live + 1)
    ∧ (pool.live = N → pool.allocate v = (pool, Except.error PoolError.PoolExhausted)) := by
  constructor
  · intro h
    obtain ⟨i, e⟩ := FixedPool.free_slot_isSome pool h
    obtain ⟨h1, _, h3, h4, h5, h6⟩ := FixedPool.allocate_of_free pool v i e
    exact ⟨i, h1, h3, h4, h5, h6⟩
  · intro h
    have e : FixedPool.free_slot pool.slots = none := by
      apply FixedPool.free_slot_full
      rw [pool.size_eq]
      exact h
    unfold FixedPool.allocate
    rw [e]

theorem fixed_pool_capacity_witness :
    ((FixedPool.empty Nat 16).live < 16
      ∧ ∃ i, ((FixedPool.empty Nat 16).allocate 5).2 = Except.ok i ∧ i < 16
          ∧ (FixedPool.empty Nat 16).get (some i) = none
          ∧ ((FixedPool.empty Nat 16).allocate 5).1.get (some i) = some 5
          ∧ ((FixedPool.empty Nat 16).allocate 5).1.live = (FixedPool.empty Nat 16).live + 1)
    ∧ ((FixedPool.full 5 16).live = 16
      ∧ (FixedPool.full 5 16).allocate 6
          = (FixedPool.full 5 16, Except.error PoolError.PoolExhausted)) :=
  ⟨⟨by decide, (fixed_pool_capacity (FixedPool.empty Nat 16) 5).1 (by decide)⟩,
    ⟨by decide, (fixed_pool_capacity (FixedPool.full 5 16) 6).2 (by decide)⟩⟩

/-! ### Frame sets -/

theorem frame_ref.copy_array_handles :
    ∀ (m : Mem) (hs : List frame_ref), (frame_ref.copy_array m hs).2 = hs
  | _, [] => rfl
  | m, h :: t => by
    simp only [frame_ref.copy_array, frame_ref.copy_ctor_handle,
      frame_ref.copy_array_handles _ t]

theorem frame_ref.copy_array_calls :
    ∀ (m : Mem) (hs : List frame_ref),
      (frame_ref.copy_array m hs).1.calls = m.calls ++ acquire_calls_of hs
  | _, [] => by simp [frame_ref.copy_array, acquire_calls_of]
  | m, h :: t => by
    simp only [frame_ref.copy_array, frame_ref.copy_array_calls _ t, frame_ref.copy_ctor_calls,
      acquire_calls_of, List.flatMap_cons, List.append_assoc]

theorem frame_ref.copy_array_count_wrap (q : Nat) :
    ∀ (m : Mem) (hs : List frame_ref), INT_MIN ≤ m.count q → m.count q ≤ INT_MAX →
      (frame_ref.copy_array m hs).1.count q = int_wrap (m.count q + targeting q hs)
  | m, [], h1, h2 => by
    simp only [frame_ref.copy_array, targeting, List.countP_nil, Int.natCast_zero,
      Int.add_zero]
    exact (int_wrap_of_int _ h1 h2).symm
  | m, h :: t, h1, h2 => by
    have hc := frame_ref.copy_ctor_count_wrap m h q
    have hr := int_wrap_is_int (m.count q + 1)
    have hcons := targeting_cons q h t
    unfold targets at hcons
    by_cases e : h.frame_ptr = some q
    · rw [if_pos e] at hc hcons
      have ih := frame_ref.copy_array_count_wrap q (frame_ref.copy_ctor m h).1 t
        (by rw [hc]; exact hr.1) (by rw [hc]; exact hr.2)
      simp only [frame_ref.copy_array]
      rw [ih, hc, int_wrap_add, hcons]
      congr 1
      ring
    · rw [if_neg e] at hc hcons
      have ih := frame_ref.copy_array_count_wrap q (frame_ref.copy_ctor m h).1 t
        (by rw [hc]; exact h1) (by rw [hc]; exact h2)
      simp only [frame_ref.copy_array]
      rw [ih, hc, hcons, Int.add_zero]

theorem frame_ref.copy_array_count (q : Nat) (m : Mem) (hs : List frame_ref)
    (h1 : INT_MIN ≤ m.count q) (h2 : m.count q + targeting q hs ≤ INT_MAX) :
    (frame_ref.copy_array m hs).1.count q = m.count q + targeting q hs := by
  have h3 : (0 : Int) ≤ targeting q hs := Int.natCast_nonneg _
  rw [frame_ref.copy_array_count_wrap q m hs h1 (by omega)]
  exact int_wrap_of_int _ (by omega) h2

theorem frame_ref.dtor_array_calls (m : Mem) :
    ∀ (hs : List frame_ref), (frame_ref.dtor_array m hs).calls = m.calls ++ release_calls_of hs
  | [] => by simp [frame_ref.dtor_array, release_calls_of]
  | h :: t => by
    simp only [frame_ref.dtor_array, frame_ref.dtor_calls, frame_ref.dtor_array_calls m t,
      release_calls_of, List.reverse_cons, List.flatMap_append, List.flatMap_cons,
      List.flatMap_nil, List.append_nil, List.append_assoc]

theorem frame_ref.dtor_array_count (m : Mem) (q : Nat) :
    ∀ (hs : List frame_ref), (frame_ref.dtor_array m hs).count q = m.count q - targeting q hs
  | [] => by simp [frame_ref.dtor_array, targeting]
  | h :: t => by
    simp only [frame_ref.dtor_array, frame_ref.dtor_count, frame_ref.dtor_array_count m q t,
      targeting_cons]
    ring

theorem frame_ref.copy_assign_null (m : Mem) (b : frame_ref) :
    frame_ref.copy_assign m ⟨none⟩ b = ((frame_ref.copy_ctor m b).1, b, b) := by
  simp [frame_ref.copy_assign, frame_ref.assign, frame_ref.swap, frame_ref.dtor,
    frame_ref.copy_ctor_handle]

theorem frameset.assign_array_fresh :
    ∀ (m : Mem) (src : List frame_ref),
      frameset.assign_array m (List.replicate src.length frame_ref.default_ctor) src
        = frame_ref.copy_array m src
  | _, [] => rfl
  | m, b :: t => by
    simp only [List.length_cons, List.replicate_succ, frameset.assign_array,
      frame_ref.default_ctor, frame_ref.copy_assign_null, frame_ref.copy_array,
      frame_ref.copy_ctor_handle]
    have ih := frameset.assign_array_fresh (frame_ref.copy_ctor m b).1 t
    simp only [frame_ref.default_ctor] at ih
    rw [ih]

/-- C9, as the code has it: the member-wise copy of a frame set gives a set equal to the
original slot by slot (same target for every stream, null stays null); it makes one acquire
call per non-null slot and no other call. The count of a frame, an `int`, becomes the wrapped
sum of what it was and the number of slots that target the frame: it rises by exactly one
per slot as long as that sum does not pass `INT_MAX`. Copy-assigning the original to a
freshly constructed set of the same size gives the same result as copy-constructing from
it. -/
theorem frameset_copy (m : Mem) (fs : frameset) :
    (frameset.copy_ctor m fs).2 = fs
    ∧ (∀ s : Nat, ((frameset.copy_ctor m fs).2.buffer[s]?).map frame_ref.frame_ptr
          = (fs.buffer[s]?).map frame_ref.frame_ptr)
    ∧ (frameset.copy_ctor m fs).1.calls = m.calls ++ acquire_calls_of fs.buffer
    ∧ (∀ q, INT_MIN ≤ m.count q → m.count q ≤ INT_MAX →
        (frameset.copy_ctor m fs).1.count q = int_wrap (m.count q + targeting q fs.buffer))
    ∧ (∀ q, INT_MIN ≤ m.count q → m.count q + targeting q fs.buffer ≤ INT_MAX →
        (frameset.copy_ctor m fs).1.count q = m.count q + targeting q fs.buffer)
    ∧ frameset.copy_assign m (frameset.default_ctor fs.buffer.length) fs
        = frameset.copy_ctor m fs := by
  have h1 : (frameset.copy_ctor m fs).2 = fs := by
    simp [frameset.copy_ctor, frame_ref.copy_array_handles]
  refine ⟨h1, ?_, ?_, ?_, ?_, ?_⟩
  · intro s
    rw [h1]
  · simp [frameset.copy_ctor, frame_ref.copy_array_calls]
  · intro q h2 h3
    exact frame_ref.copy_array_count_wrap q m fs.buffer h2 h3
  · intro q h2 h3
    exact frame_ref.copy_array_count q m fs.buffer h2 h3
  · simp [frameset.copy_assign, frameset.default_ctor, frameset.copy_ctor,
      frameset.assign_array_fresh]

theorem frameset_copy_witness :
    INT_MIN ≤ (Mem.uniform 3).count 0
    ∧ (Mem.uniform 3).count 0 + targeting 0 frameset.sample.buffer ≤ INT_MAX
    ∧ (frameset.copy_ctor (Mem.uniform 3) frameset.sample).1.count 0
        = (Mem.uniform 3).count 0 + targeting 0 frameset.sample.buffer :=
  ⟨by decide, by decide,
    (frameset_copy (Mem.uniform 3) frameset.sample).2.2.2.2.1 0 (by decide) (by decide)⟩

/-- C9 fails as stated: copy a frame set whose only slot targets the frame at address 0 while
the count of that frame is `INT_MAX` = 2147483647. The copy has the same slot, but the count
of the frame is -2147483648 afterwards, not 2147483648: it did not rise by one. -/
theorem frameset_copy_wraps :
    (Mem.uniform 2147483647).count 0 = 2147483647
    ∧ (frameset.copy_ctor (Mem.uniform 2147483647) ⟨[⟨some 0⟩]⟩).2 = ⟨[⟨some 0⟩]⟩
    ∧ (frameset.copy_ctor (Mem.uniform 2147483647) ⟨[⟨some 0⟩]⟩).1.count 0 = -2147483648
    ∧ ¬ ((frameset.copy_ctor (Mem.uniform 2147483647) ⟨[⟨some 0⟩]⟩).1.count 0
          = (Mem.uniform 2147483647).count 0 + 1) := by
  decide

/-! ### Releasing and cloning frame sets -/

theorem FixedPool.get_some_index {T : Type} {N : Nat} (pool : FixedPool T N) (ptr : Option Nat)
    (v : T) (h : pool.get ptr = some v) :
    ∃ i, ptr = some i ∧ pool.slots[i]? = some (some v) := by
  cases ptr with
  | none => simp [FixedPool.get] at h
  | some i =>
    refine ⟨i, rfl, ?_⟩
    simp only [FixedPool.get] at h
    rcases e : pool.slots[i]? with _ | _ | w
    · rw [e] at h; simp at h
    · rw [e] at h; simp at h
    · rw [e] at h
      simp at h
      rw [h]

theorem FixedPool.deallocate_of_live {T : Type} {N : Nat} (pool : FixedPool T N) (i : Nat)
    (v : T) (h : pool.slots[i]? = some (some v)) :
    (pool.deallocate (some i)).2 = Except.ok v
    ∧ (pool.deallocate (some i)).1.slots = pool.slots.set i none
    ∧ (pool.deallocate (some i)).1.get (some i) = none
    ∧ (pool.deallocate (some i)).1.live + 1 = pool.live := by
  have hlt : i < pool.slots.length := (List.getElem?_eq_some_iff.mp h).1
  have hget : pool.slots[i] = some v := (List.getElem?_eq_some_iff.mp h).2
  have hg : pool.get (some i) = some v := by simp [FixedPool.get, h]
  have hd : pool.deallocate (some i)
      = (⟨pool.slots.set i none, by rw [List.length_set]; exact pool.size_eq⟩,
          Except.ok v) := by
    unfold FixedPool.deallocate
    rw [hg]
  have hle := List.boole_getElem_le_countP Option.isSome pool.slots i hlt
  rw [hget] at hle
  simp only [Option.isSome_some, if_true] at hle
  refine ⟨by rw [hd], by rw [hd], ?_, ?_⟩
  · rw [hd]
    simp [FixedPool.get, hlt]
  · rw [hd]
    simp only [FixedPool.live, List.countP_set _ _ _ _ hlt, hget, Option.isSome_some,
      Option.isSome_none, if_true]
    simp
    omega

theorem frame_archive.release_frameset_of_live {N : Nat} (m : Mem) (a : frame_archive N)
    (i : Nat) (fs : frameset) (h : a.published_sets.slots[i]? = some (some fs)) :
    frame_archive.release_frameset m a (some i)
      = (fs.dtor m, { a with published_sets := (a.published_sets.deallocate (some i)).1 },
          Except.ok ()) := by
  have h1 := (FixedPool.deallocate_of_live a.published_sets i fs h).1
  unfold frame_archive.release_frameset
  generalize a.published_sets.deallocate (some i) = d at h1
  obtain ⟨pool, r⟩ := d
  simp only at h1
  subst h1
  rfl

theorem frame_archive.clone_frameset_of_live {N : Nat} (m : Mem) (a : frame_archive N)
    (ptr : Option Nat) (fs : frameset) (c : Nat) (h : a.published_sets.get ptr = some fs)
    (e : FixedPool.free_slot a.published_sets.slots = some c) :
    frame_archive.clone_frameset m a ptr
      = ((fs.copy_ctor m).1, { a with published_sets := (a.published_sets.allocate fs).1 },
          Except.ok c) := by
  have h1 := (FixedPool.allocate_of_free a.published_sets fs c e).1
  have h3 : (fs.copy_ctor m).2 = fs := by
    simp [frameset.copy_ctor, frame_ref.copy_array_handles]
  unfold frame_archive.clone_frameset
  rw [h, e]
  simp only
  rw [h3, h1]

theorem frameset.set_dtor_calls (m : Mem) (fs : frameset) :
    (fs.dtor m).calls = m.calls ++ release_calls_of fs.buffer :=
  frame_ref.dtor_array_calls m fs.buffer

theorem frameset.set_dtor_count (m : Mem) (fs : frameset) (q : Nat) :
    (fs.dtor m).count q = m.count q - targeting q fs.buffer :=
  frame_ref.dtor_array_count m q fs.buffer

theorem frameset.set_copy_calls (m : Mem) (fs : frameset) :
    (fs.copy_ctor m).1.calls = m.calls ++ acquire_calls_of fs.buffer :=
  frame_ref.copy_array_calls m fs.buffer

theorem frameset.set_copy_count (m : Mem) (fs : frameset) (q : Nat)
    (h1 : INT_MIN ≤ m.count q) (h2 : m.count q + targeting q fs.buffer ≤ INT_MAX) :
    (fs.copy_ctor m).1.count q = m.count q + targeting q fs.buffer :=
  frame_ref.copy_array_count q m fs.buffer h1 h2

/-- The scenario clone, release the original, release the clone, when the set is live and
the pool has the free slot `c`. -/
theorem frame_archive.clone_then_release_both_of_live {N : Nat} (m : Mem) (a : frame_archive N)
    (i c : Nat) (fs : frameset) (hi : a.published_sets.slots[i]? = some (some fs))
    (hc : FixedPool.free_slot a.published_sets.slots = some c) :
    (frame_archive.clone_then_release_both m a (some i)).1
        = fs.dtor (fs.dtor (fs.copy_ctor m).1)
    ∧ (frame_archive.clone_then_release_both m a (some i)).2.2
        = (Except.ok c, Except.ok (), Except.ok ())
    ∧ (frame_archive.clone_then_release_both m a (some i)).2.1.published_sets.live + 1
        = a.published_sets.live := by
  have hg : a.published_sets.get (some i) = some fs := by simp [FixedPool.get, hi]
  have hcn := FixedPool.free_slot_some a.published_sets.slots c hc
  have hne : c ≠ i := by
    intro e
    rw [e, hi] at hcn
    simp at hcn
  have hlt : c < a.published_sets.slots.length := (List.getElem?_eq_some_iff.mp hcn).1
  obtain ⟨_, p1, _, _, _, l1⟩ := FixedPool.allocate_of_free a.published_sets fs c hc
  -- the pool after the clone
  have hi1 : (a.published_sets.allocate fs).1.slots[i]? = some (some fs) := by
    rw [p1, List.getElem?_set_ne hne]; exact hi
  obtain ⟨_, p2, _, l2⟩ := FixedPool.deallocate_of_live (a.published_sets.allocate fs).1 i fs hi1
  -- the pool after the release of the original
  have hc2 : ((a.published_sets.allocate fs).1.deallocate (some i)).1.slots[c]?
      = some (some fs) := by
    rw [p2, List.getElem?_set_ne (Ne.symm hne), p1, List.getElem?_set_self hlt]
  obtain ⟨_, _, _, l3⟩ := FixedPool.deallocate_of_live
    ((a.published_sets.allocate fs).1.deallocate (some i)).1 c fs hc2
  have e1 := frame_archive.clone_frameset_of_live m a (some i) fs c hg hc
  have e2 := frame_archive.release_frameset_of_live (fs.copy_ctor m).1
    { a with published_sets := (a.published_sets.allocate fs).1 } i fs hi1
  have e3 := frame_archive.release_frameset_of_live (fs.dtor (fs.copy_ctor m).1)
    { a with published_sets := ((a.published_sets.allocate fs).1.deallocate (some i)).1 }
    c fs hc2
  unfold frame_archive.clone_then_release_both
  rw [e1]
  simp only
  rw [e2]
  simp only
  rw [e3]
  refine ⟨rfl, rfl, ?_⟩
  simp only
  omega

theorem frame_archive.clone_frameset_ok_slot {N : Nat} (m : Mem) (a : frame_archive N)
    (ptr : Option Nat) (fs : frameset) (c : Nat) (h : a.published_sets.get ptr = some fs)
    (hc : (frame_archive.clone_frameset m a ptr).2.2 = Except.ok c) :
    FixedPool.free_slot a.published_sets.slots = some c := by
  cases e : FixedPool.free_slot a.published_sets.slots with
  | none =>
    unfold frame_archive.clone_frameset at hc
    rw [h, e] at hc
    simp at hc
  | some k =>
    rw [frame_archive.clone_frameset_of_live m a ptr fs k h e] at hc
    simp only [Except.ok.injEq] at hc
    rw [hc]

/-- C8, as the model has it: when `frameset` designates the live set `fs` of the frameset
pool, `release_frameset` succeeds, makes exactly one release call per non-null slot of `fs`
(so the count of every frame goes down by the number of slots that target it), and the set
object is back in the pool: its slot is free and one object fewer is live. Cloning the set
succeeds whenever the pool has a free slot, and whenever the clone succeeds, releasing the
original and the clone both succeed; the calls made are one acquire per non-null slot
followed by two releases per non-null slot. Every count ends two per slot below its value
right after the clone; since the clone raised it by one per slot (counts that stay within
`int`), it ends one per slot, not two, below its value before the clone. The pool holds one
object fewer than before the clone. -/
theorem release_frameset_decrements {N : Nat} (m : Mem) (a : frame_archive N)
    (frameset : Option Nat) (fs : rsimpl.frameset)
    (h : a.published_sets.get frameset = some fs) :
    ((frame_archive.release_frameset m a frameset).2.2 = Except.ok ()
      ∧ (frame_archive.release_frameset m a frameset).1.calls
          = m.calls ++ release_calls_of fs.buffer
      ∧ (∀ q, (frame_archive.release_frameset m a frameset).1.count q
          = m.count q - targeting q fs.buffer)
      ∧ (frame_archive.release_frameset m a frameset).2.1.published_sets.get frameset = none
      ∧ (frame_archive.release_frameset m a frameset).2.1.published_sets.live + 1
          = a.published_sets.live)
    ∧ (a.published_sets.live < N →
        ∃ c, (frame_archive.clone_frameset m a frameset).2.2 = Except.ok c)
    ∧ (∀ c, (frame_archive.clone_frameset m a frameset).2.2 = Except.ok c →
      (frame_archive.clone_then_release_both m a frameset).2.2
          = (Except.ok c, Except.ok (), Except.ok ())
      ∧ (frame_archive.clone_then_release_both m a frameset).1.calls
          = m.calls ++ acquire_calls_of fs.buffer ++ release_calls_of fs.buffer
              ++ release_calls_of fs.buffer
      ∧ (∀ q, (frame_archive.clone_then_release_both m a frameset).1.count q
          = (frame_archive.clone_frameset m a frameset).1.count q
              - 2 * targeting q fs.buffer)
      ∧ (∀ q, INT_MIN ≤ m.count q → m.count q + targeting q fs.buffer ≤ INT_MAX →
          (frame_archive.clone_frameset m a frameset).1.count q
              = m.count q + targeting q fs.buffer
          ∧ (frame_archive.clone_then_release_both m a frameset).1.count q
              = m.count q - targeting q fs.buffer)
      ∧ (frame_archive.clone_then_release_both m a frameset).2.1.published_sets.live + 1
          = a.published_sets.live) := by
  obtain ⟨i, rfl, hi⟩ := FixedPool.get_some_index a.published_sets frameset fs h
  refine ⟨?_, ?_, ?_⟩
  · have r := frame_archive.release_frameset_of_live m a i fs hi
    obtain ⟨_, _, d3, d4⟩ := FixedPool.deallocate_of_live a.published_sets i fs hi
    rw [r]
    exact ⟨rfl, frameset.set_dtor_calls m fs, frameset.set_dtor_count m fs, d3, d4⟩
  · intro hfree
    obtain ⟨c, hc⟩ := FixedPool.free_slot_isSome a.published_sets hfree
    exact ⟨c, by rw [frame_archive.clone_frameset_of_live m a (some i) fs c h hc]⟩
  · intro c hok
    have hc := frame_archive.clone_frameset_ok_slot m a (some i) fs c h hok
    obtain ⟨s1, s2, s3⟩ := frame_archive.clone_then_release_both_of_live m a i c fs hi hc
    have hcl : (frame_archive.clone_frameset m a (some i)).1 = (fs.copy_ctor m).1 := by
      rw [frame_archive.clone_frameset_of_live m a (some i) fs c h hc]
    refine ⟨s2, ?_, ?_, ?_, s3⟩
    · rw [s1, frameset.set_dtor_calls, frameset.set_dtor_calls, frameset.set_copy_calls]
    · intro q
      rw [s1, hcl, frameset.set_dtor_count, frameset.set_dtor_count]
      ring
    · intro q h1 h2
      rw [s1, hcl, frameset.set_dtor_count, frameset.set_dtor_count,
        frameset.set_copy_count m fs q h1 h2]
      exact ⟨rfl, by ring⟩

theorem release_frameset_decrements_witness :
    frame_archive.sample.published_sets.get (some 0) = some frameset.sample
    ∧ (frame_archive.clone_frameset (Mem.uniform 3) frame_archive.sample (some 0)).2.2
        = Except.ok 1
    ∧ INT_MIN ≤ (Mem.uniform 3).count 0
    ∧ (Mem.uniform 3).count 0 + targeting 0 frameset.sample.buffer ≤ INT_MAX
    ∧ (frame_archive.release_frameset (Mem.uniform 3) frame_archive.sample (some 0)).1.count 0
        = (Mem.uniform 3).count 0 - targeting 0 frameset.sample.buffer
    ∧ (frame_archive.clone_then_release_both (Mem.uniform 3) frame_archive.sample (some 0)).1.calls
        = (Mem.uniform 3).calls ++ acquire_calls_of frameset.sample.buffer
            ++ release_calls_of frameset.sample.buffer
            ++ release_calls_of frameset.sample.buffer
    ∧ (frame_archive.clone_then_release_both (Mem.uniform 3) frame_archive.sample
          (some 0)).1.count 0
        = (Mem.uniform 3).count 0 - targeting 0 frameset.sample.buffer :=
  ⟨rfl, rfl, by decide, by decide,
    (release_frameset_decrements (Mem.uniform 3) frame_archive.sample (some 0) frameset.sample
      rfl).1.2.2.1 0,
    ((release_frameset_decrements (Mem.uniform 3) frame_archive.sample (some 0) frameset.sample
      rfl).2.2 1 rfl).2.1,
    (((release_frameset_decrements (Mem.uniform 3) frame_archive.sample (some 0)
      frameset.sample rfl).2.2 1 rfl).2.2.2.1 0 (by decide) (by decide)).2⟩

/-- C8 fails as stated: in an archive whose frameset pool holds one set with a single slot,
on a frame of count 3, clone the set and release the original and the clone. All three
calls succeed; the count is 4 after the clone and 2 at the end. Relative to before the clone
it went down by one, not by two. -/
theorem clone_release_net_decrement :
    frame_archive.single.published_sets.get (some 0) = some frameset.single
    ∧ (frame_archive.clone_then_release_both (Mem.uniform 3) frame_archive.single
          (some 0)).2.2 = (Except.ok 1, Except.ok (), Except.ok ())
    ∧ (Mem.uniform 3).count 0 = 3
    ∧ (frame_archive.clone_frameset (Mem.uniform 3) frame_archive.single (some 0)).1.count 0
        = 4
    ∧ (frame_archive.clone_then_release_both (Mem.uniform 3) frame_archive.single
          (some 0)).1.count 0 = 2
    ∧ ¬ ((frame_archive.clone_then_release_both (Mem.uniform 3) frame_archive.single
          (some 0)).1.count 0 = (Mem.uniform 3).count 0 - 2) :=
  ⟨rfl, rfl, by decide, by decide, by decide, by decide⟩

/-! ### Default construction, swap and assignment onto the same target -/

/-- C14: a default-constructed handle is null; it is the observer of no frame and owes no
acquire call, so adding it to the live handles leaves every count of handles as it was. A
freshly constructed frame set for `n` streams has `n` slots and every one of them is null. -/
theorem frame_ref_default_is_null (n q : Nat) (hs : List frame_ref) :
    frame_ref.default_ctor.frame_ptr = none
    ∧ acquire_calls frame_ref.default_ctor = []
    ∧ release_calls frame_ref.default_ctor = []
    ∧ targets frame_ref.default_ctor q = 0
    ∧ targeting q (hs ++ [frame_ref.default_ctor]) = targeting q hs
    ∧ (frameset.default_ctor n).buffer.length = n
    ∧ (frameset.default_ctor n).buffer = List.replicate n ⟨none⟩
    ∧ (∀ s, s < n → (frameset.default_ctor n).buffer[s]? = some ⟨none⟩)
    ∧ targeting q (frameset.default_ctor n).buffer = 0 := by
  refine ⟨rfl, rfl, rfl, rfl, ?_, ?_, rfl, ?_, ?_⟩
  · simp [targeting, frame_ref.default_ctor]
  · simp [frameset.default_ctor]
  · intro s hs
    simp [frameset.default_ctor, frame_ref.default_ctor, hs]
  · simp [targeting, frameset.default_ctor, frame_ref.default_ctor]

theorem frame_ref_default_is_null_witness :
    (2 : Nat) < 5 ∧ (frameset.default_ctor 5).buffer[2]? = some ⟨none⟩ :=
  ⟨by decide, (frame_ref_default_is_null 5 0 []).2.2.2.2.2.2.2.1 2 (by decide)⟩

theorem Mem.released_release_of_ne (m : Mem) (p : Nat) (h : m.count p ≠ 1) :
    (m.release p).released = m.released := by
  have h2 : ¬ (m.frames p).ref_count - 1 = 0 := by
    intro e
    apply h
    unfold Mem.count
    omega
  simp [Mem.release, frame.release, h2]

/-- C15, as the code has it: let a handle on the frame `F`, whose count `c` is at least 1 and
below `INT_MAX`, be copy-assigned a handle that also targets `F`. The parameter of
`operator=` is copy-constructed first, which takes the count to `c + 1`; the release of the
old value is made on that memory and brings the count back to `c`. The calls are one acquire
of `F` followed by one release of `F`, the count is never below `c` and never zero on the
way, no release action runs, and both handles still target `F`. The same holds when the
handle is assigned to itself. -/
theorem frame_ref_copy_assign_same_target (m : Mem) (F : Nat) (hc : 1 ≤ m.count F)
    (hmax : m.count F < INT_MAX) :
    (frame_ref.copy_ctor m ⟨some F⟩).1.count F = m.count F + 1
    ∧ (frame_ref.copy_assign m ⟨some F⟩ ⟨some F⟩).1
        = (frame_ref.copy_ctor m ⟨some F⟩).1.release F
    ∧ (frame_ref.copy_assign m ⟨some F⟩ ⟨some F⟩).1.count F = m.count F
    ∧ (frame_ref.copy_assign m ⟨some F⟩ ⟨some F⟩).1.calls
        = m.calls ++ [Call.acquire F, Call.release F]
    ∧ (frame_ref.copy_assign m ⟨some F⟩ ⟨some F⟩).1.released = m.released
    ∧ m.count F ≤ (frame_ref.copy_ctor m ⟨some F⟩).1.count F
    ∧ (frame_ref.copy_ctor m ⟨some F⟩).1.count F ≠ 0
    ∧ (frame_ref.copy_assign m ⟨some F⟩ ⟨some F⟩).1.count F ≠ 0
    ∧ (frame_ref.copy_assign m ⟨some F⟩ ⟨some F⟩).2 = (⟨some F⟩, ⟨some F⟩)
    ∧ (∀ (hs : List frame_ref) (i : Nat), hs[i]? = some ⟨some F⟩ →
        (Store.step ⟨m, hs⟩ (RefOp.copy_assign i i)).handles = hs
        ∧ (Store.step ⟨m, hs⟩ (RefOp.copy_assign i i)).mem
            = (frame_ref.copy_assign m ⟨some F⟩ ⟨some F⟩).1) := by
  have hmin : INT_MIN ≤ m.count F := by
    unfold INT_MIN
    omega
  have h1 : (frame_ref.copy_ctor m ⟨some F⟩).1.count F = m.count F + 1 := by
    rw [frame_ref.copy_ctor_count m ⟨some F⟩ F (fun _ => ⟨hmin, hmax⟩)]
    simp [targets]
  have h2 : (frame_ref.copy_assign m ⟨some F⟩ ⟨some F⟩).1
      = (frame_ref.copy_ctor m ⟨some F⟩).1.release F := rfl
  have h3 : (frame_ref.copy_assign m ⟨some F⟩ ⟨some F⟩).1.count F = m.count F := by
    rw [h2, Mem.count_release, h1]
    simp
  refine ⟨h1, h2, h3, ?_, ?_, by rw [h1]; omega, by rw [h1]; omega, by rw [h3]; omega, rfl, ?_⟩
  · rw [h2, Mem.calls_release]
    simp [frame_ref.copy_ctor, Mem.calls_acquire]
  · rw [h2, Mem.released_release_of_ne _ _ (by rw [h1]; omega)]
    rfl
  · intro hs i hi
    have hlt : i < hs.length := (List.getElem?_eq_some_iff.mp hi).1
    have hget : hs[i] = ⟨some F⟩ := (List.getElem?_eq_some_iff.mp hi).2
    constructor
    · simp only [Store.step, hi]
      apply List.ext_getElem?
      intro k
      by_cases hk : i = k
      · subst hk
        rw [List.getElem?_set_self hlt, hi]
        rfl
      · rw [List.getElem?_set_ne hk]
    · simp only [Store.step, hi]
      rfl

theorem frame_ref_copy_assign_same_target_witness :
    1 ≤ (Mem.uniform 1).count 0
    ∧ (Mem.uniform 1).count 0 < INT_MAX
    ∧ (frame_ref.copy_ctor (Mem.uniform 1) ⟨some 0⟩).1.count 0 = (Mem.uniform 1).count 0 + 1
    ∧ (frame_ref.copy_assign (Mem.uniform 1) ⟨some 0⟩ ⟨some 0⟩).1.count 0
        = (Mem.uniform 1).count 0
    ∧ (frame_ref.copy_assign (Mem.uniform 1) ⟨some 0⟩ ⟨some 0⟩).1.calls
        = (Mem.uniform 1).calls ++ [Call.acquire 0, Call.release 0]
    ∧ (frame_ref.copy_assign (Mem.uniform 1) ⟨some 0⟩ ⟨some 0⟩).1.released
        = (Mem.uniform 1).released :=
  ⟨by decide, by decide,
    (frame_ref_copy_assign_same_target (Mem.uniform 1) 0 (by decide) (by decide)).1,
    (frame_ref_copy_assign_same_target (Mem.uniform 1) 0 (by decide) (by decide)).2.2.1,
    (frame_ref_copy_assign_same_target (Mem.uniform 1) 0 (by decide) (by decide)).2.2.2.1,
    (frame_ref_copy_assign_same_target (Mem.uniform 1) 0 (by decide) (by decide)).2.2.2.2.1⟩

/-- C15 fails as stated: let a handle on a frame whose count is `INT_MAX` = 2147483647 be
copy-assigned a handle on the same frame. The acquire made by the copy of the parameter wraps
the count around to -2147483648 before the old value is released: during the assignment the
count is below the 2147483647 it started from. -/
theorem frame_ref_copy_assign_wraps :
    1 ≤ (Mem.uniform 2147483647).count 0
    ∧ (frame_ref.copy_assign (Mem.uniform 2147483647) ⟨some 0⟩ ⟨some 0⟩).1.calls
        = [Call.acquire 0, Call.release 0]
    ∧ (frame_ref.copy_ctor (Mem.uniform 2147483647) ⟨some 0⟩).1.count 0 = -2147483648
    ∧ ¬ ((Mem.uniform 2147483647).count 0
          ≤ (frame_ref.copy_ctor (Mem.uniform 2147483647) ⟨some 0⟩).1.count 0) := by
  decide

theorem list_set_same {α : Type} :
    ∀ (l : List α) (i : Nat) (a : α), l[i]? = some a → l.set i a = l
  | [], _, _, h => by simp at h
  | x :: t, 0, a, h => by
    simp only [List.getElem?_cons_zero, Option.some.injEq] at h
    subst h
    rfl
  | x :: t, i + 1, a, h => by
    simp only [List.getElem?_cons_succ] at h
    rw [List.set_cons_succ, list_set_same t i a h]

theorem frame_ref.swap_table_twice (hs : List frame_ref) (i j : Nat) (a b : frame_ref)
    (hi : hs[i]? = some a) (hj : hs[j]? = some b) (hij : i ≠ j) :
    (((hs.set i b).set j a).set i a).set j b = hs := by
  rw [List.set_comm _ _ _ (Ne.symm hij), List.set_set, List.set_set,
    list_set_same hs i a hi, list_set_same hs j b hj]

theorem Store.swap_mem (s : Store) (i j : Nat) : (s.step (RefOp.swap i j)).mem = s.mem := by
  simp only [Store.step]
  cases s.handles[i]? <;> cases s.handles[j]? <;> rfl

theorem Store.swap_handles (s : Store) (i j : Nat) (x y : frame_ref)
    (hx : s.handles[i]? = some x) (hy : s.handles[j]? = some y) :
    (s.step (RefOp.swap i j)).handles = (s.handles.set i y).set j x := by
  simp only [Store.step, hx, hy, frame_ref.swap]

theorem Store.swap_self (s : Store) (i : Nat) : (s.step (RefOp.swap i i)).handles = s.handles := by
  cases hi : s.handles[i]? with
  | none => simp [Store.step, hi]
  | some x =>
    rw [Store.swap_handles s i i x x hi hi, List.set_set, list_set_same _ i x hi]

theorem Store.swap_twice (s : Store) (i j : Nat) :
    ((s.step (RefOp.swap i j)).step (RefOp.swap i j)).handles = s.handles := by
  by_cases hij : i = j
  · subst hij
    rw [Store.swap_self, Store.swap_self]
  · cases hi : s.handles[i]? with
    | none => simp [Store.step, hi]
    | some x =>
      cases hj : s.handles[j]? with
      | none => simp [Store.step, hi, hj]
      | some y =>
        have hjl : j < s.handles.length := (List.getElem?_eq_some_iff.mp hj).1
        have hil : i < s.handles.length := (List.getElem?_eq_some_iff.mp hi).1
        have h1 := Store.swap_handles s i j x y hi hj
        have hj2 : (s.step (RefOp.swap i j)).handles[j]? = some x := by
          rw [h1, List.getElem?_set_self (by rw [List.length_set]; exact hjl)]
        have hi2 : (s.step (RefOp.swap i j)).handles[i]? = some y := by
          rw [h1, List.getElem?_set_ne (Ne.symm hij), List.getElem?_set_self hil]
        rw [Store.swap_handles _ i j y x hi2 hj2, h1]
        exact frame_ref.swap_table_twice s.handles i j x y hi hj hij

/-- C16: `swap` exchanges the targets of the two handles. On the table of live handles the
frame memory is not touched (no acquire, no release, every count as before), the two
positions exchange their handles, swapping the same pair a second time gives the table back,
and swapping a handle with itself leaves the table as it was. -/
theorem frame_ref_swap_exchanges (a b : frame_ref) (s : Store) (i j : Nat) :
    frame_ref.swap a b = (b, a)
    ∧ frame_ref.swap (frame_ref.swap a b).1 (frame_ref.swap a b).2 = (a, b)
    ∧ frame_ref.swap a a = (a, a)
    ∧ (s.step (RefOp.swap i j)).mem = s.mem
    ∧ (s.step (RefOp.swap i j)).mem.calls = s.mem.calls
    ∧ (∀ q, (s.step (RefOp.swap i j)).mem.count q = s.mem.count q)
    ∧ (s.handles[i]? = some a → s.handles[j]? = some b →
        (s.step (RefOp.swap i j)).handles = (s.handles.set i b).set j a
        ∧ (s.step (RefOp.swap i j)).handles[j]? = some a
        ∧ (i ≠ j → (s.step (RefOp.swap i j)).handles[i]? = some b))
    ∧ ((s.step (RefOp.swap i j)).step (RefOp.swap i j)).handles = s.handles
    ∧ ((s.step (RefOp.swap i j)).step (RefOp.swap i j)).mem = s.mem
    ∧ (s.step (RefOp.swap i i)).handles = s.handles
    ∧ (s.step (RefOp.swap i i)).mem = s.mem := by
  have hmem := Store.swap_mem s i j
  refine ⟨rfl, rfl, rfl, hmem, by rw [hmem], fun q => by rw [hmem], ?_,
    Store.swap_twice s i j, by rw [Store.swap_mem, Store.swap_mem], Store.swap_self s i,
    Store.swap_mem s i i⟩
  intro hi hj
  have hjl : j < s.handles.length := (List.getElem?_eq_some_iff.mp hj).1
  have hil : i < s.handles.length := (List.getElem?_eq_some_iff.mp hi).1
  have h1 := Store.swap_handles s i j a b hi hj
  refine ⟨h1, ?_, ?_⟩
  · rw [h1, List.getElem?_set_self (by rw [List.length_set]; exact hjl)]
  · intro hij
    rw [h1, List.getElem?_set_ne (Ne.symm hij), List.getElem?_set_self hil]

theorem frame_ref_swap_exchanges_witness :
    (Store.mk (Mem.uniform 1) [⟨some 0⟩, ⟨none⟩]).handles[0]? = some ⟨some 0⟩
    ∧ (Store.mk (Mem.uniform 1) [⟨some 0⟩, ⟨none⟩]).handles[1]? = some ⟨none⟩
    ∧ ((Store.mk (Mem.uniform 1) [⟨some 0⟩, ⟨none⟩]).step (RefOp.swap 0 1)).handles
        = [⟨none⟩, ⟨some 0⟩] :=
  ⟨rfl, rfl,
    ((frame_ref_swap_exchanges ⟨some 0⟩ ⟨none⟩
      (Store.mk (Mem.uniform 1) [⟨some 0⟩, ⟨none⟩]) 0 1).2.2.2.2.2.2.1 rfl rfl).1⟩

/-! ### The configuration table and the stream index -/

/-- C13: for a stream `s` whose entry in the configuration table is `sel`,
`is_stream_enabled(s)` is true exactly when `sel.mode.pf.fourcc` is not 0 (so it is false for
a stream left with fourcc 0) and `get_mode(s)` is `sel`. Two archives with the same
configuration table give the same answers whatever their pools, backbuffers and freelists
hold; both members only return a value. -/
theorem stream_enabled_iff_fourcc {N : Nat} (a : frame_archive N) (s : Nat)
    (sel : subdevice_mode_selection) (h : a.modes[s]? = some sel) :
    (a.is_stream_enabled s = some true ↔ sel.mode.pf.fourcc ≠ 0)
    ∧ (a.is_stream_enabled s = some false ↔ sel.mode.pf.fourcc = 0)
    ∧ a.get_mode s = some sel
    ∧ (∀ (K : Nat) (b : frame_archive K), b.modes = a.modes →
        b.is_stream_enabled s = a.is_stream_enabled s ∧ b.get_mode s = a.get_mode s) := by
  refine ⟨?_, ?_, h, ?_⟩
  · simp [frame_archive.is_stream_enabled, h]
  · simp [frame_archive.is_stream_enabled, h]
  · intro K b hb
    simp [frame_archive.is_stream_enabled, frame_archive.get_mode, hb]

theorem stream_enabled_iff_fourcc_witness :
    frame_archive.sample.modes[0]? = some ⟨⟨⟨0⟩⟩⟩
    ∧ frame_archive.sample.is_stream_enabled 0 = some false
    ∧ frame_archive.sample.is_stream_enabled 1 = some true
    ∧ frame_archive.sample.get_mode 0 = some ⟨⟨⟨0⟩⟩⟩ :=
  ⟨rfl,
    (stream_enabled_iff_fourcc frame_archive.sample 0 ⟨⟨⟨0⟩⟩⟩ rfl).2.1.mpr rfl,
    (stream_enabled_iff_fourcc frame_archive.sample 1 ⟨⟨⟨844715353⟩⟩⟩ rfl).1.mpr (by decide),
    (stream_enabled_iff_fourcc frame_archive.sample 0 ⟨⟨⟨0⟩⟩⟩ rfl).2.2.1⟩

/-- C18: let the configuration table and the slot array of a frame set both have `n` entries
(`n` is `RS_STREAM_NATIVE_COUNT`). For a stream index below `n` the look-ups of
`is_stream_enabled`, `get_mode` and of the four accessors of the frame set are inside their
table; for an index of `n` or more every one of them is outside, since none of the members
checks the index. -/
theorem stream_index_in_bounds {N : Nat} (a : frame_archive N) (fs : frameset) (m : Mem)
    (n s : Nat) (hm : a.modes.length = n) (hb : fs.buffer.length = n) :
    (s < n →
      (a.is_stream_enabled s).isSome ∧ (a.get_mode s).isSome
      ∧ (fs.get_frame_data m s).isSome ∧ (fs.get_frame_timestamp m s).isSome
      ∧ (fs.get_frame_number m s).isSome ∧ (fs.get_frame_system_time m s).isSome)
    ∧ (n ≤ s →
      a.is_stream_enabled s = none ∧ a.get_mode s = none
      ∧ fs.get_frame_data m s = none ∧ fs.get_frame_timestamp m s = none
      ∧ fs.get_frame_number m s = none ∧ fs.get_frame_system_time m s = none) := by
  constructor
  · intro h
    have h1 : s < a.modes.length := by omega
    have h2 : s < fs.buffer.length := by omega
    simp [frame_archive.is_stream_enabled, frame_archive.get_mode, frameset.get_frame_data,
      frameset.get_frame_timestamp, frameset.get_frame_number, frameset.get_frame_system_time,
      List.getElem?_eq_getElem h1, List.getElem?_eq_getElem h2]
  · intro h
    have h1 : a.modes.length ≤ s := by omega
    have h2 : fs.buffer.length ≤ s := by omega
    simp [frame_archive.is_stream_enabled, frame_archive.get_mode, frameset.get_frame_data,
      frameset.get_frame_timestamp, frameset.get_frame_number, frameset.get_frame_system_time,
      List.getElem?_eq_none h1, List.getElem?_eq_none h2]

theorem stream_index_in_bounds_witness :
    frame_archive.sample.modes.length = 3 ∧ frameset.sample.buffer.length = 3
    ∧ (2 : Nat) < 3 ∧ (3 : Nat) ≤ 3
    ∧ (frame_archive.sample.is_stream_enabled 2).isSome
    ∧ (frameset.sample.get_frame_timestamp (Mem.uniform 1) 2).isSome
    ∧ frame_archive.sample.get_mode 3 = none
    ∧ frameset.sample.get_frame_data (Mem.uniform 1) 3 = none :=
  ⟨rfl, rfl, by decide, by decide,
    ((stream_index_in_bounds frame_archive.sample frameset.sample (Mem.uniform 1) 3 2 rfl
      rfl).1 (by decide)).1,
    ((stream_index_in_bounds frame_archive.sample frameset.sample (Mem.uniform 1) 3 2 rfl
      rfl).1 (by decide)).2.2.2.1,
    ((stream_index_in_bounds frame_archive.sample frameset.sample (Mem.uniform 1) 3 3 rfl
      rfl).2 (by decide)).2.1,
    ((stream_index_in_bounds frame_archive.sample frameset.sample (Mem.uniform 1) 3 3 rfl
      rfl).2 (by decide)).2.2.1⟩

/-! ### Publishing, unpublishing, placing and detaching frames -/

theorem frame_archive.publish_frame_of_free {N : Nat} (m : Mem) (a : frame_archive N)
    (f : frame) (p : Nat) (e : FixedPool.free_slot a.published_frames.slots = some p) :
    frame_archive.publish_frame m a f
      = ({ m with frames := Function.update m.frames p (frame.move_ctor f).1 },
          { a with published_frames := (a.published_frames.allocate ()).1 }, Except.ok p) := by
  have h1 := (FixedPool.allocate_of_free a.published_frames () p e).1
  unfold frame_archive.publish_frame
  generalize a.published_frames.allocate () = d at h1
  obtain ⟨pool, r⟩ := d
  simp only at h1
  subst h1
  rfl

theorem frame_archive.publish_frame_ok_slot {N : Nat} (m : Mem) (a : frame_archive N)
    (f : frame) (p : Nat) (h : (frame_archive.publish_frame m a f).2.2 = Except.ok p) :
    FixedPool.free_slot a.published_frames.slots = some p := by
  cases e : FixedPool.free_slot a.published_frames.slots with
  | none =>
    have h1 : a.published_frames.allocate ()
        = (a.published_frames, Except.error PoolError.PoolExhausted) := by
      unfold FixedPool.allocate
      rw [e]
    unfold frame_archive.publish_frame at h
    rw [h1] at h
    simp at h
  | some k =>
    rw [frame_archive.publish_frame_of_free m a f k e] at h
    simp only [Except.ok.injEq] at h
    rw [h]

theorem frame_archive.unpublish_frame_of_live {N : Nat} (m : Mem) (a : frame_archive N)
    (p : Nat) (h : a.published_frames.slots[p]? = some (some ())) :
    frame_archive.unpublish_frame m a (some p)
      = ({ m with frames := Function.update m.frames p (frame.move_ctor (m.frames p)).2 },
          { a with
            published_frames := (a.published_frames.deallocate (some p)).1
            freelist := a.freelist ++ [(frame.move_ctor (m.frames p)).1] },
          Except.ok ()) := by
  have h1 := (FixedPool.deallocate_of_live a.published_frames p () h).1
  unfold frame_archive.unpublish_frame
  generalize a.published_frames.deallocate (some p) = d at h1
  obtain ⟨pool, r⟩ := d
  simp only at h1
  subst h1
  rfl

/-- C12: when `publish_frame(f)` succeeds with the pointer `p` (it does whenever the frame pool
has a free slot), `unpublish_frame(p)` right after it succeeds and appends exactly one frame
to the freelist; the buffer contents, timestamp, frame number and system time of that frame
are those of `f`, and the pool has as many live frames as before the publication. -/
theorem publish_then_unpublish {N : Nat} (m : Mem) (a : frame_archive N) (f : frame) :
    (a.published_frames.live < N → ∃ p, (frame_archive.publish_frame m a f).2.2 = Except.ok p)
    ∧ (∀ p, (frame_archive.publish_frame m a f).2.2 = Except.ok p →
      (frame_archive.unpublish_frame (frame_archive.publish_frame m a f).1
          (frame_archive.publish_frame m a f).2.1 (some p)).2.2 = Except.ok ()
      ∧ (∃ g, (frame_archive.unpublish_frame (frame_archive.publish_frame m a f).1
            (frame_archive.publish_frame m a f).2.1 (some p)).2.1.freelist = a.freelist ++ [g]
          ∧ g.data = f.data ∧ g.timestamp = f.timestamp
          ∧ g.frame_number = f.frame_number ∧ g.system_time = f.system_time)
      ∧ (frame_archive.unpublish_frame (frame_archive.publish_frame m a f).1
          (frame_archive.publish_frame m a f).2.1 (some p)).2.1.published_frames.live
          = a.published_frames.live) := by
  constructor
  · intro hfree
    obtain ⟨p, hp⟩ := FixedPool.free_slot_isSome a.published_frames hfree
    exact ⟨p, by rw [frame_archive.publish_frame_of_free m a f p hp]⟩
  · intro p hok
    have hp := frame_archive.publish_frame_ok_slot m a f p hok
    obtain ⟨_, p1, _, _, g1, l1⟩ := FixedPool.allocate_of_free a.published_frames () p hp
    have hlive : (a.published_frames.allocate ()).1.slots[p]? = some (some ()) := by
      have hlt : p < a.published_frames.slots.length :=
        (List.getElem?_eq_some_iff.mp (FixedPool.free_slot_some _ p hp)).1
      rw [p1, List.getElem?_set_self hlt]
    obtain ⟨_, _, _, l2⟩ :=
      FixedPool.deallocate_of_live (a.published_frames.allocate ()).1 p () hlive
    rw [frame_archive.publish_frame_of_free m a f p hp]
    simp only
    rw [frame_archive.unpublish_frame_of_live _ _ p hlive]
    refine ⟨rfl, ⟨_, rfl, ?_, ?_, ?_, ?_⟩, ?_⟩
    · simp [frame.move_ctor, frame.move_assign]
    · simp [frame.move_ctor, frame.move_assign]
    · simp [frame.move_ctor, frame.move_assign]
    · simp [frame.move_ctor, frame.move_assign]
    · simp only
      omega

theorem publish_then_unpublish_witness :
    frame_archive.sample.published_frames.live < 2
    ∧ (frame_archive.publish_frame (Mem.uniform 0) frame_archive.sample (frame.sample 0)).2.2
        = Except.ok 0
    ∧ (frame_archive.unpublish_frame
          (frame_archive.publish_frame (Mem.uniform 0) frame_archive.sample (frame.sample 0)).1
          (frame_archive.publish_frame (Mem.uniform 0) frame_archive.sample (frame.sample 0)).2.1
          (some 0)).2.2 = Except.ok () :=
  ⟨by decide, rfl,
    ((publish_then_unpublish (Mem.uniform 0) frame_archive.sample (frame.sample 0)).2 0
      rfl).1⟩

theorem Mem.acquire_content (m : Mem) (q p : Nat) :
    ((m.acquire q).frames p).data = (m.frames p).data
    ∧ ((m.acquire q).frames p).timestamp = (m.frames p).timestamp
    ∧ ((m.acquire q).frames p).frame_number = (m.frames p).frame_number
    ∧ ((m.acquire q).frames p).system_time = (m.frames p).system_time := by
  by_cases h : p = q
  · subst h
    simp [Mem.acquire, frame.acquire]
  · simp [Mem.acquire, Function.update_noteq h]

theorem Mem.release_content (m : Mem) (q p : Nat) :
    ((m.release q).frames p).data = (m.frames p).data
    ∧ ((m.release q).frames p).timestamp = (m.frames p).timestamp
    ∧ ((m.release q).frames p).frame_number = (m.frames p).frame_number
    ∧ ((m.release q).frames p).system_time = (m.frames p).system_time := by
  by_cases h : p = q
  · subst h
    simp only [Mem.release, frame.release, Function.update_same]
    split <;> exact ⟨rfl, rfl, rfl, rfl⟩
  · simp [Mem.release, Function.update_noteq h]

theorem frame_ref.dtor_content (m : Mem) (r : frame_ref) (p : Nat) :
    ((frame_ref.dtor m r).frames p).data = (m.frames p).data
    ∧ ((frame_ref.dtor m r).frames p).timestamp = (m.frames p).timestamp
    ∧ ((frame_ref.dtor m r).frames p).frame_number = (m.frames p).frame_number
    ∧ ((frame_ref.dtor m r).frames p).system_time = (m.frames p).system_time := by
  rcases r with ⟨_ | q⟩
  · exact ⟨rfl, rfl, rfl, rfl⟩
  · exact Mem.release_content m q p

theorem frame.move_ctor_content (f : frame) :
    (frame.move_ctor f).1.data = f.data
    ∧ (frame.move_ctor f).1.timestamp = f.timestamp
    ∧ (frame.move_ctor f).1.frame_number = f.frame_number
    ∧ (frame.move_ctor f).1.system_time = f.system_time :=
  ⟨rfl, rfl, rfl, rfl⟩

theorem frameset.place_frame_ok {N : Nat} (m : Mem) (a : frame_archive N) (fs : frameset)
    (stream : Nat) (f : frame) (prior : frame_ref) (p : Nat)
    (hs : fs.buffer[stream]? = some prior)
    (hp : FixedPool.free_slot a.published_frames.slots = some p) :
    fs.place_frame m a stream f
      = some ((frame_ref.from_frame (frame_ref.dtor (frame_archive.publish_frame m a f).1 prior)
                (some p)).1,
          (frame_archive.publish_frame m a f).2.1,
          ⟨fs.buffer.set stream ⟨some p⟩⟩, Except.ok ()) := by
  unfold frameset.place_frame
  rw [hs, frame_archive.publish_frame_of_free m a f p hp]
  rfl

theorem frameset.place_frame_ok_inv {N : Nat} (m m2 : Mem) (a a2 : frame_archive N)
    (fs fs2 : frameset) (stream : Nat) (f : frame)
    (h : fs.place_frame m a stream f = some (m2, a2, fs2, Except.ok ())) :
    ∃ prior p, fs.buffer[stream]? = some prior
      ∧ FixedPool.free_slot a.published_frames.slots = some p := by
  cases hs : fs.buffer[stream]? with
  | none =>
    unfold frameset.place_frame at h
    rw [hs] at h
    simp at h
  | some prior =>
    cases hp : FixedPool.free_slot a.published_frames.slots with
    | some p => exact ⟨prior, p, rfl, rfl⟩
    | none =>
      have h1 : a.published_frames.allocate ()
          = (a.published_frames, Except.error PoolError.PoolExhausted) := by
        unfold FixedPool.allocate
        rw [hp]
      unfold frameset.place_frame frame_archive.publish_frame at h
      rw [hs, h1] at h
      simp at h

/-- C11: when `place_frame(stream, f)` succeeds on a frame set (it does whenever the stream is
one of the set's slots and the frame pool has a free slot), the `detach_ref(stream)` that
follows returns a handle whose data, timestamp, frame number and system time are those of
`f`; afterwards the slot of the stream is null and the other slots are what they were
before the placement. -/
theorem place_then_detach {N : Nat} (m : Mem) (a : frame_archive N) (fs : frameset)
    (stream : Nat) (f : frame) :
    (stream < fs.buffer.length → a.published_frames.live < N →
      ∃ m2 a2 fs2, fs.place_frame m a stream f = some (m2, a2, fs2, Except.ok ()))
    ∧ (∀ m2 a2 fs2, fs.place_frame m a stream f = some (m2, a2, fs2, Except.ok ()) →
      ∃ r fs3, fs2.detach_ref stream = some (r, fs3)
        ∧ r.get_frame_data m2 = some f.data
        ∧ r.get_frame_timestamp m2 = some f.timestamp
        ∧ r.get_frame_number m2 = some f.frame_number
        ∧ r.get_frame_system_time m2 = some f.system_time
        ∧ fs3.buffer[stream]? = some ⟨none⟩
        ∧ ∀ k, k ≠ stream → fs3.buffer[k]? = fs.buffer[k]?) := by
  constructor
  · intro hlt hfree
    obtain ⟨p, hp⟩ := FixedPool.free_slot_isSome a.published_frames hfree
    have hs : fs.buffer[stream]? = some fs.buffer[stream] := List.getElem?_eq_getElem hlt
    exact ⟨_, _, _, frameset.place_frame_ok m a fs stream f _ p hs hp⟩
  · intro m2 a2 fs2 h
    obtain ⟨prior, p, hs, hp⟩ := frameset.place_frame_ok_inv m m2 a a2 fs fs2 stream f h
    have hlt : stream < fs.buffer.length := (List.getElem?_eq_some_iff.mp hs).1
    rw [frameset.place_frame_ok m a fs stream f prior p hs hp] at h
    simp only [Option.some.injEq, Prod.mk.injEq, and_true] at h
    obtain ⟨hm, _, hf⟩ := h
    subst hm
    subst hf
    have hpub : (frame_archive.publish_frame m a f).1.frames p = (frame.move_ctor f).1 := by
      rw [frame_archive.publish_frame_of_free m a f p hp]
      simp
    have hc1 := Mem.acquire_content
      (frame_ref.dtor (frame_archive.publish_frame m a f).1 prior) p p
    have hc2 := frame_ref.dtor_content (frame_archive.publish_frame m a f).1 prior p
    have hc3 := frame.move_ctor_content f
    rw [hpub] at hc2
    have hd : (frameset.mk (fs.buffer.set stream ⟨some p⟩)).detach_ref stream
        = some (⟨some p⟩, ⟨(fs.buffer.set stream ⟨some p⟩).set stream ⟨none⟩⟩) := by
      unfold frameset.detach_ref
      simp only [List.getElem?_set_self hlt]
      rfl
    refine ⟨_, _, hd, ?_, ?_, ?_, ?_, ?_, ?_⟩
    · simp only [frame_ref.get_frame_data, frame_ref.from_frame, Option.map_some']
      rw [hc1.1, hc2.1, hc3.1]
    · simp only [frame_ref.get_frame_timestamp, frame_ref.from_frame, Option.map_some']
      rw [hc1.2.1, hc2.2.1, hc3.2.1]
    · simp only [frame_ref.get_frame_number, frame_ref.from_frame, Option.map_some']
      rw [hc1.2.2.1, hc2.2.2.1, hc3.2.2.1]
    · simp only [frame_ref.get_frame_system_time, frame_ref.from_frame, Option.map_some']
      rw [hc1.2.2.2, hc2.2.2.2, hc3.2.2.2]
    · simp only
      rw [List.getElem?_set_self (by rw [List.length_set]; exact hlt)]
    · intro k hk
      simp only
      rw [List.getElem?_set_ne (Ne.symm hk), List.getElem?_set_ne (Ne.symm hk)]

theorem place_then_detach_witness :
    frameset.sample.place_frame (Mem.uniform 1) frame_archive.sample 2 (frame.sample 0)
      = some (Mem.sample_placed,
          (frame_archive.publish_frame (Mem.uniform 1) frame_archive.sample
            (frame.sample 0)).2.1,
          ⟨[⟨some 0⟩, ⟨none⟩, ⟨some 0⟩]⟩, Except.ok ())
    ∧ ∃ r fs3, (frameset.mk [⟨some 0⟩, ⟨none⟩, ⟨some 0⟩]).detach_ref 2 = some (r, fs3)
        ∧ r.get_frame_data Mem.sample_placed = some (frame.sample 0).data
        ∧ r.get_frame_timestamp Mem.sample_placed = some (frame.sample 0).timestamp
        ∧ r.get_frame_number Mem.sample_placed = some (frame.sample 0).frame_number
        ∧ r.get_frame_system_time Mem.sample_placed = some (frame.sample 0).system_time
        ∧ fs3.buffer[2]? = some ⟨none⟩
        ∧ ∀ k, k ≠ 2 → fs3.buffer[k]? = frameset.sample.buffer[k]? :=
  ⟨rfl,
    (place_then_detach (Mem.uniform 1) frame_archive.sample frameset.sample 2
      (frame.sample 0)).2 _ _ _ rfl⟩

end rsimpl
